import Mathlib

/-!
Verification of the PM4 market-maker core against its natural-language
specification.

The Python sources are shallowly embedded:
* `pm4/utils.py` — numeric primitives (`clip`, `logit`, `sigmoid`,
  `floor_to_tick`, `ceil_to_tick`); floats are modelled as real numbers, and
  the tick-rounding helpers return `Option ℝ` because Python float division
  raises `ZeroDivisionError` when the tick is zero.
* `pm4/market_data.py` — book state and the `book` message handler, modelled
  over `ℚ` (the handler performs only rational arithmetic and comparisons).
* `pm4/trading.py` — indicators (`time_factor`, `B_side`, `q_max`, `q_hat`,
  `gamma`, `A_p`, `L_U`, `lambda_struct`, `on_time_sample`), the ladder
  builder `build_v1_ladder`, the quoter `Quoter.compute`, and the reconciler
  `MarketMakerBot._reconcile`.  The reconciler performs only rational
  arithmetic, so it is modelled over `ℚ` with an explicit oracle describing
  which `cancel_order` calls fail; the rest is modelled over `ℝ`.
-/

namespace PM4

/-! Section: `pm4/utils.py` -/

/-- Embeds `utils.clip`: clip value to `[lo, hi]` (`max(lo, min(hi, x))`). -/
def clip (x lo hi : ℝ) : ℝ := max lo (min hi x)

/-- Embeds `utils.logit`: logit transformation with clipping of `p` to
`[eps, 1 - eps]`, `eps = 1e-6`. -/
noncomputable def logit (p : ℝ) : ℝ :=
  Real.log (clip p 1e-6 (1 - 1e-6) / (1 - clip p 1e-6 (1 - 1e-6)))

/-- Embeds `utils.sigmoid`: numerically stable two-branch sigmoid. -/
noncomputable def sigmoid (x : ℝ) : ℝ :=
  if 0 ≤ x then 1 / (1 + Real.exp (-x))
  else Real.exp x / (1 + Real.exp x)

/-- Embeds `utils.floor_to_tick`: `math.floor(p / tick) * tick`.  Python float
division raises `ZeroDivisionError` on `tick = 0`, hence the `Option`. -/
noncomputable def floor_to_tick (p tick : ℝ) : Option ℝ :=
  if tick = 0 then none else some ((⌊p / tick⌋ : ℝ) * tick)

/-- Embeds `utils.ceil_to_tick`: `math.ceil(p / tick) * tick`; `ZeroDivisionError`
on `tick = 0`. -/
noncomputable def ceil_to_tick (p tick : ℝ) : Option ℝ :=
  if tick = 0 then none else some ((⌈p / tick⌉ : ℝ) * tick)

/-- Python `int()` applied to a float: truncation toward zero. -/
noncomputable def pyInt (x : ℝ) : ℤ := if 0 ≤ x then ⌊x⌋ else ⌈x⌉

/-! Section: `pm4/market_data.py` (over `ℚ`) -/

/-- Embeds `market_data.BookState` (the fields the `book` handler touches). -/
structure BookState where
  best_bid : ℚ := 0
  best_ask : ℚ := 1
  mid : ℚ := 1/2
  tick_size : ℚ := 1/100
  last_book_ts_ms : ℤ := 0
deriving DecidableEq, Repr

/-- A `book` websocket frame: optional `bids`/`buys` and `asks`/`sells`
arrays (kept as the lists of their price fields, best first) plus a
timestamp. -/
structure BookMsg where
  bids : Option (List ℚ) := none
  buys : Option (List ℚ) := none
  asks : Option (List ℚ) := none
  sells : Option (List ℚ) := none
  timestamp : ℤ := 0
deriving DecidableEq, Repr

/-- Python `msg.get("bids") or msg.get("buys") or []`: a missing key or an
empty list falls through to the alternative. -/
def effSide (primary alt : Option (List ℚ)) : List ℚ :=
  if (primary.getD []).isEmpty then alt.getD [] else primary.getD []

/-- Embeds `MarketData._update_mid`: set `mid = (best_bid + best_ask)/2` only when
`best_bid > 0`, `best_ask < 1` and `best_bid < best_ask`. -/
def update_mid (s : BookState) : BookState :=
  if 0 < s.best_bid ∧ s.best_ask < 1 ∧ s.best_bid < s.best_ask then
    { s with mid := (s.best_bid + s.best_ask) / 2 }
  else s

/-- Embeds `MarketData.on_book`: replace `best_bid`/`best_ask` from the first entry
of the (non-empty) sides, update the book timestamp, recompute `mid`. -/
def on_book (s : BookState) (m : BookMsg) : BookState :=
  let bids := effSide m.bids m.buys
  let asks := effSide m.asks m.sells
  let s1 := match bids with
    | [] => s
    | b :: _ => { s with best_bid := b }
  let s2 := match asks with
    | [] => s1
    | a :: _ => { s1 with best_ask := a }
  update_mid { s2 with last_book_ts_ms := m.timestamp }

/-! Section: Reconciler (`MarketMakerBot._reconcile`, over `ℚ`)

Prices and sizes in the reconciler are compared and combined with rational
arithmetic only, so the embedding uses `ℚ` and stays executable.  Venue
effects are reified as a list of issued operations; an oracle
`cancelFails : String → Bool` records which `cancel_order` calls raise.  In
the resize branch `cancel_order` and `place_limit_order` share one `try`
block, so a failing cancel suppresses the following place. -/

/-- Order side. -/
inductive Side where
  | BUY
  | SELL
deriving DecidableEq, Repr

/-- A desired order (one level of the quoter's ladder). -/
structure DesiredOrder where
  asset_id : String
  side : Side
  price : ℚ
  size : ℚ
deriving DecidableEq, Repr

/-- An open order as returned by `list_open_orders`. -/
structure OpenOrder where
  order_id : String
  asset_id : String
  side : Side
  price : ℚ
  size : ℚ
  size_remaining : ℚ
deriving DecidableEq, Repr

/-- An operation issued to the exchange. -/
inductive Op where
  | place (asset_id : String) (side : Side) (price size : ℚ)
  | cancel (order_id : String)
deriving DecidableEq, Repr

/-- One assignment `existing_map[price] = o` of the Python dict keyed by
price: overwrite in place if the key exists, else append. -/
def mapInsert (m : List OpenOrder) (o : OpenOrder) : List OpenOrder :=
  if m.any (fun e => e.price == o.price) then
    m.map (fun e => if e.price == o.price then o else e)
  else m ++ [o]

/-- Partition the open orders of the traded asset into the price-keyed
`existing_bids` and `existing_asks` dicts. -/
def buildMaps (asset_id : String) (orders : List OpenOrder) :
    List OpenOrder × List OpenOrder :=
  orders.foldl
    (fun bm o =>
      if o.asset_id ≠ asset_id then bm
      else match o.side with
        | Side.BUY => (mapInsert bm.1 o, bm.2)
        | Side.SELL => (bm.1, mapInsert bm.2 o))
    ([], [])

/-- Embeds `for ep in existing_map: if abs(ep - wp) < 1e-9: found_price = ep; break`. -/
def findMatch (m : List OpenOrder) (wp : ℚ) : Option OpenOrder :=
  m.find? (fun e => |e.price - wp| < 1/1000000000)

/-- Operations issued for a desired level matched to an existing order:
resize (cancel then place) when the relative size difference exceeds 0.25;
a failing cancel suppresses the place. -/
def matchedOps (cancelFails : String → Bool) (w : DesiredOrder)
    (o : OpenOrder) : List Op :=
  if 1/4 < |w.size - o.size_remaining| / max o.size_remaining (1/1000000000) then
    if cancelFails o.order_id then [Op.cancel o.order_id]
    else [Op.cancel o.order_id, Op.place w.asset_id w.side w.price w.size]
  else []

/-- The per-desired-level loop of `reconcile_side`: returns the issued
operations and the accumulated `claimed_prices`. -/
def reconcileWants (cancelFails : String → Bool) (m : List OpenOrder) :
    List DesiredOrder → List ℚ → List Op × List ℚ
  | [], claimed => ([], claimed)
  | w :: rest, claimed =>
    match findMatch m w.price with
    | some o =>
      let r := reconcileWants cancelFails m rest (claimed ++ [o.price])
      (matchedOps cancelFails w o ++ r.1, r.2)
    | none =>
      let r := reconcileWants cancelFails m rest claimed
      (Op.place w.asset_id w.side w.price w.size :: r.1, r.2)

/-- The prune loop of `reconcile_side`: cancel every existing price not
claimed by a desired level. -/
def pruneOps (claimed : List ℚ) (m : List OpenOrder) : List Op :=
  (m.filter (fun o => !(claimed.contains o.price))).map
    (fun o => Op.cancel o.order_id)

/-- Embeds `MarketMakerBot._reconcile.reconcile_side`. -/
def reconcile_side (cancelFails : String → Bool)
    (wanted : List DesiredOrder) (m : List OpenOrder) : List Op :=
  let r := reconcileWants cancelFails m wanted []
  r.1 ++ pruneOps r.2 m

/-- Embeds `MarketMakerBot._reconcile`: bids side then asks side against the
price-keyed maps of the asset's open orders. -/
def reconcile (cancelFails : String → Bool) (asset_id : String)
    (bids asks : List DesiredOrder) (openOrders : List OpenOrder) : List Op :=
  let maps := buildMaps asset_id openOrders
  reconcile_side cancelFails bids maps.1 ++ reconcile_side cancelFails asks maps.2

/-! Section: Configuration (`pm4/types.py`), flattened into one record -/

/-- The configuration fields used by the indicators, quoter, ladder and
reconciler (`MarketConfig`, `RiskConfig`, `QuoteConfig` of `types.py`). -/
structure Cfg where
  asset_id_yes : String
  start_ts_ms : ℤ
  resolve_ts_ms : ℤ
  dt_sample_s : ℝ
  tau_fast_s : ℝ
  tau_slow_s : ℝ
  markout_w1 : ℝ
  markout_w2 : ℝ
  bankroll_B : ℝ
  n_plays : ℕ
  eta_time : ℝ
  slippage_buffer : ℝ
  gamma_a : ℝ
  gamma_max : ℝ
  lambda_min : ℝ
  lambda_max : ℝ
  beta_p : ℝ
  alpha_U : ℝ
  U_ref : ℝ
  w_A : ℝ
  w_L : ℝ
  s_scale : ℝ
  I_max : ℝ
  c_tox : ℝ
  c_sigma : ℝ
  nu_sigma : ℝ
  sigma_max : ℝ
  sigma_tau_up_s : ℝ
  sigma_tau_down_s : ℝ
  c_risk : ℝ
  kappa0 : ℝ
  rate_ref_per_s : ℝ
  max_half_spread_logit : ℝ
  ladder_decay : ℝ
  ladder_step_mult : ℝ
  ladder_min_step_logit : ℝ
  ladder_max_levels : ℕ
  min_order_size : ℝ
  max_order_notional_side : ℝ

/-- The defaults of `types.py` (market fields as in the S1 scenario:
a market opening at `t = 0` and resolving one day later). -/
noncomputable def defaultCfg : Cfg where
  asset_id_yes := "YES"
  start_ts_ms := 0
  resolve_ts_ms := 86400000
  dt_sample_s := 5
  tau_fast_s := 30
  tau_slow_s := 1800
  markout_w1 := 0.6
  markout_w2 := 0.4
  bankroll_B := 50
  n_plays := 3
  eta_time := 0.5
  slippage_buffer := 0.10
  gamma_a := 1
  gamma_max := 50
  lambda_min := 0.8
  lambda_max := 2
  beta_p := 0.7
  alpha_U := 0.5
  U_ref := 50
  w_A := 1
  w_L := 1
  s_scale := 1
  I_max := 3
  c_tox := 1
  c_sigma := 1
  nu_sigma := 1.4
  sigma_max := 6
  sigma_tau_up_s := 10
  sigma_tau_down_s := 90
  c_risk := 0.2
  kappa0 := 1
  rate_ref_per_s := 0.05
  max_half_spread_logit := 1.5
  ladder_decay := 0.8
  ladder_step_mult := 0.5
  ladder_min_step_logit := 0.05
  ladder_max_levels := 5
  min_order_size := 1
  max_order_notional_side := 100

/-! Section: Indicators (`pm4/trading.py`, class `Indicators`) -/

/-- Embeds `Indicators._ema`: `prev + a * (x - prev)` with `a = 1 - exp(-dt/τ)`;
if `τ ≤ 0` the new observation is returned unchanged. -/
noncomputable def ema (prev x tau_s dt_s : ℝ) : ℝ :=
  if tau_s ≤ 0 then x
  else prev + (1 - Real.exp (-dt_s / tau_s)) * (x - prev)

/-- Embeds `Indicators.time_factor`: `(τ_remaining / T_total) ** eta_time` with the
total duration floored at 1 ms and the remaining time at 0. -/
noncomputable def time_factor (cfg : Cfg) (t_ms : ℤ) : ℝ :=
  let T : ℝ := (max (cfg.resolve_ts_ms - cfg.start_ts_ms) 1 : ℤ) / 1000
  let tau : ℝ := (max (cfg.resolve_ts_ms - t_ms) 0 : ℤ) / 1000
  if 0 < T then (tau / T) ^ cfg.eta_time else 1

/-- Embeds `Indicators.B_side`: `0.5 * bankroll_B / max(n_plays, 1)`. -/
noncomputable def B_side (cfg : Cfg) : ℝ :=
  0.5 * cfg.bankroll_B * (1 / (max cfg.n_plays 1 : ℕ))

/-- Embeds `Indicators.q_max`: Kelly position cap
`B_side * time_factor / max(p_opp * (1 + slippage_buffer), 1e-9)`. -/
noncomputable def q_max (cfg : Cfg) (p q : ℝ) (t_ms : ℤ) : ℝ :=
  let p_opp := if 0 ≤ q then 1 - p else p
  let denom := max (p_opp * (1 + cfg.slippage_buffer)) 1e-9
  B_side cfg * time_factor cfg t_ms / denom

/-- Embeds `Indicators.q_hat`: `clip(q / q_max, -1, 1)` when `q_max > 0`, else 0. -/
noncomputable def q_hat (cfg : Cfg) (q p : ℝ) (t_ms : ℤ) : ℝ :=
  let qm := q_max cfg p q t_ms
  if 0 < qm then clip (q / qm) (-1) 1 else 0

/-- Embeds `Indicators.gamma`: `clip(1/(1-u)**gamma_a, 1, gamma_max)` with
`u = clip(|qhat|, 0, 0.999999)`. -/
noncomputable def gammaInd (cfg : Cfg) (qhat : ℝ) : ℝ :=
  let u := clip |qhat| 0 0.999999
  clip (1 / (1 - u) ^ cfg.gamma_a) 1 cfg.gamma_max

/-- Embeds `Indicators.A_p`: `((p * (1-p)) / 0.25) ** beta_p` after clipping `p`. -/
noncomputable def A_p (cfg : Cfg) (p : ℝ) : ℝ :=
  let p := clip p 1e-6 (1 - 1e-6)
  (p * (1 - p) / 0.25) ^ cfg.beta_p

/-- Embeds `Indicators.L_U`: `(U_ref / (U + U_ref)) ** alpha_U` with
`U_ref` floored at `1e-9`. -/
noncomputable def L_U (cfg : Cfg) (U : ℝ) : ℝ :=
  let Uref := max cfg.U_ref 1e-9
  (Uref / (U + Uref)) ^ cfg.alpha_U

/-- Embeds `Indicators.lambda_struct`: weighted combination of `A_p` and `L_U`,
linearly interpolated and clipped into `[lambda_min, lambda_max]`. -/
noncomputable def lambda_struct (cfg : Cfg) (p U : ℝ) : ℝ :=
  let A := A_p cfg p
  let L := L_U cfg U
  let s := cfg.w_A * (A - 1) + cfg.w_L * (L - 1)
  let g := clip (s / max cfg.s_scale 1e-9) (-1) 1
  let lam := if 0 < g then 1 + (cfg.lambda_max - 1) * g
    else 1 + (1 - cfg.lambda_min) * g
  clip lam cfg.lambda_min cfg.lambda_max

/-- The mutable scalar state of `Indicators` touched by `on_time_sample`. -/
structure IndState where
  sigma_smoothed : ℝ
  ema_fast_abs : ℝ
  ema_slow_abs : ℝ
  ema_fast_r : ℝ
  ema_fast_abs_r : ℝ
  ema_slow_abs_r : ℝ
  last_sample_ts_ms : Option ℤ
  last_x : Option ℝ
  tox_ema_pos_h1 : ℝ
  tox_ema_pos_h2 : ℝ

/-- The priors set in `Indicators.__init__` (σ = 1, all EMAs 0). -/
def indInit : IndState where
  sigma_smoothed := 1
  ema_fast_abs := 0
  ema_slow_abs := 0
  ema_fast_r := 0
  ema_fast_abs_r := 0
  ema_slow_abs_r := 0
  last_sample_ts_ms := none
  last_x := none
  tox_ema_pos_h1 := 0
  tox_ema_pos_h2 := 0

/-- Embeds `Indicators.on_time_sample`: one sampling tick of the volatility
engine.  Early-outs (first sample, or a tick arriving before
`int(dt*1000) - 10` ms have elapsed) leave the EMAs and σ untouched. -/
noncomputable def on_time_sample (cfg : Cfg) (st : IndState) (t_ms : ℤ)
    (p_mid trade_rate_per_s : ℝ) : IndState :=
  let dt_s := cfg.dt_sample_s
  let x := logit p_mid
  match st.last_sample_ts_ms with
  | none => { st with last_sample_ts_ms := some t_ms, last_x := some x }
  | some last_ts =>
    if t_ms - last_ts < pyInt (dt_s * 1000) - 10 then st
    else
      let r := x - st.last_x.getD x
      let abs_r := |r|
      let ema_fast_abs := ema st.ema_fast_abs abs_r cfg.tau_fast_s dt_s
      let ema_slow_abs := ema st.ema_slow_abs abs_r cfg.tau_slow_s dt_s
      let ema_fast_r := ema st.ema_fast_r r cfg.tau_fast_s dt_s
      let ema_fast_abs_r := ema st.ema_fast_abs_r abs_r cfg.tau_fast_s dt_s
      let ema_slow_abs_r := ema st.ema_slow_abs_r abs_r cfg.tau_slow_s dt_s
      let I := clip (trade_rate_per_s / max cfg.rate_ref_per_s 1e-9) 1 cfg.I_max
      let J := ema_fast_abs / max ema_slow_abs 1e-9
      let D := |ema_fast_r| / max ema_fast_abs_r 1e-9
      let S_sigma := max (Real.log (max J 1)) 0 * clip D 0 1 * I
      let T := cfg.markout_w1 * st.tox_ema_pos_h1 + cfg.markout_w2 * st.tox_ema_pos_h2
      let Z_tox := T / max ema_slow_abs_r 1e-9
      let S := S_sigma + cfg.c_tox * Z_tox
      let sigma_raw := clip (1 + cfg.c_sigma * S ^ cfg.nu_sigma) 1 cfg.sigma_max
      let tau := if st.sigma_smoothed < sigma_raw then cfg.sigma_tau_up_s
        else cfg.sigma_tau_down_s
      { st with
        sigma_smoothed := ema st.sigma_smoothed sigma_raw tau dt_s
        ema_fast_abs := ema_fast_abs
        ema_slow_abs := ema_slow_abs
        ema_fast_r := ema_fast_r
        ema_fast_abs_r := ema_fast_abs_r
        ema_slow_abs_r := ema_slow_abs_r
        last_sample_ts_ms := some t_ms
        last_x := some x }

/-- A sequence of `on_time_sample` calls (timestamp, mid, trade rate). -/
noncomputable def runSamples (cfg : Cfg) (st : IndState) :
    List (ℤ × ℝ × ℝ) → IndState
  | [] => st
  | (t, p, rate) :: rest =>
    runSamples cfg (on_time_sample cfg st t p rate) rest

/-! Section: Ladder builder (`trading.build_v1_ladder`) -/

/-- One raw ladder level (`{"level": i, "price": p, "size": size}`). -/
structure Level where
  level : ℕ
  price : ℝ
  size : ℝ

/-- The bid loop of `build_v1_ladder`: for each `i`, price
`floor(sigmoid(x_b0 - i·Δx)/tick)·tick`, aborting once the price falls to
`0.001` or below; Kelly size `risk_i / max(p, 1e-3)`.  The first argument
is the remaining iteration budget `N_bid - i`. -/
noncomputable def bidLoop (x_b0 base_step tick base_risk_unit decay : ℝ) :
    ℕ → ℕ → List Level
  | 0, _ => []
  | n + 1, i =>
    let x := x_b0 - i * base_step
    let p := (⌊sigmoid x / tick⌋ : ℝ) * tick
    if p ≤ 0.001 then []
    else
      { level := i, price := p, size := base_risk_unit * decay ^ i / max p 0.001 } ::
        bidLoop x_b0 base_step tick base_risk_unit decay n (i + 1)

/-- The ask loop of `build_v1_ladder`: price
`ceil(sigmoid(x_a0 + i·Δx)/tick)·tick`, aborting at `0.999` or above;
size `risk_i / max(1 - p, 1e-3)`. -/
noncomputable def askLoop (x_a0 base_step tick base_risk_unit decay : ℝ) :
    ℕ → ℕ → List Level
  | 0, _ => []
  | n + 1, i =>
    let x := x_a0 + i * base_step
    let p := (⌈sigmoid x / tick⌉ : ℝ) * tick
    if 0.999 ≤ p then []
    else
      { level := i, price := p, size := base_risk_unit * decay ^ i / max (1 - p) 0.001 } ::
        askLoop x_a0 base_step tick base_risk_unit decay n (i + 1)

open Classical

/-- One assignment into the `seen` dict of `build_v1_ladder.dedupe`: a new
price is appended; an existing price keeps the entry with the smaller level
index, in place. -/
noncomputable def dedupeStep (seen : List Level) (l : Level) : List Level :=
  if ∃ s ∈ seen, s.price = l.price then
    seen.map (fun s => if s.price = l.price ∧ l.level < s.level then l else s)
  else seen ++ [l]

/-- Embeds `build_v1_ladder.dedupe` without the final sort: fold the levels into
the insertion-ordered `seen` dict. -/
noncomputable def dedupe (levels : List Level) : List Level :=
  levels.foldl dedupeStep []

/-- Sort key for bids: descending price. -/
def bidOrd (a b : Level) : Prop := b.price ≤ a.price

/-- Sort key for asks: ascending price. -/
def askOrd (a b : Level) : Prop := a.price ≤ b.price

noncomputable instance : DecidableRel bidOrd := fun a b => by
  unfold bidOrd; infer_instance

noncomputable instance : DecidableRel askOrd := fun a b => by
  unfold askOrd; infer_instance

instance : IsTotal Level bidOrd := ⟨fun a b => le_total b.price a.price⟩

instance : IsTrans Level bidOrd :=
  ⟨fun _ _ _ h h' => le_trans h' h⟩

instance : IsTotal Level askOrd := ⟨fun a b => le_total a.price b.price⟩

instance : IsTrans Level askOrd :=
  ⟨fun _ _ _ h h' => le_trans h h'⟩

/-- The `bids`/`asks` output of `build_v1_ladder`. -/
structure LadderOut where
  bids : List Level
  asks : List Level

/-- Embeds `trading.build_v1_ladder`. -/
noncomputable def build_v1_ladder (r_x half_b half_a tick B_side decay
    step_mult min_step_logit : ℝ) (max_levels : ℕ) : LadderOut :=
  let x_b0 := r_x - half_b
  let x_a0 := r_x + half_a
  let base_step := max (step_mult * (half_b + half_a) / 2) min_step_logit
  let x_min := logit (max tick 0.001)
  let x_max := logit (min (1 - tick) 0.999)
  let N_bid := if 1e-9 < base_step then
    min max_levels (pyInt (max 0 ((x_b0 - x_min) / base_step))).toNat else 0
  let N_ask := if 1e-9 < base_step then
    min max_levels (pyInt (max 0 ((x_max - x_a0) / base_step))).toNat else 0
  let base_risk_unit := B_side * 0.10
  { bids := (dedupe (bidLoop x_b0 base_step tick base_risk_unit decay N_bid 0)).insertionSort bidOrd
    asks := (dedupe (askLoop x_a0 base_step tick base_risk_unit decay N_ask 0)).insertionSort askOrd }

/-! Section: Quoter (`trading.Quoter`) -/

/-- An order emitted by `Quoter.compute.clean_orders`. -/
structure QOrder where
  asset_id : String
  side : Side
  price : ℝ
  size : ℝ

/-- Embeds `Quoter.compute.clean_orders`: raise sizes to `min_order_size` and keep
levels while the cumulative notional impact (price·size for BUY,
(1-price)·size for SELL) stays within `max_order_notional_side`. -/
noncomputable def clean_orders (asset_id : String) (min_order_size
    max_order_notional_side : ℝ) (side : Side) :
    List Level → ℝ → List QOrder
  | [], _ => []
  | o :: rest, total_notional =>
    let sz := max min_order_size o.size
    let px := o.price
    let notional_impact := if side = Side.BUY then px * sz else (1 - px) * sz
    if max_order_notional_side < total_notional + notional_impact then []
    else
      { asset_id := asset_id, side := side, price := px, size := sz } ::
        clean_orders asset_id min_order_size max_order_notional_side side rest
          (total_notional + notional_impact)

/-- Embeds `Quoter.estimate_U_proxy` / `MarketData.trade_rate_per_s` count trades
from the newest backwards until one is older than the cutoff. -/
def countRecent (trade_ts : List ℤ) (cutoff : ℤ) : ℕ :=
  (trade_ts.reverse.takeWhile (fun ts => cutoff ≤ ts)).length

/-- Embeds `MarketData.trade_rate_per_s` over a 60 s window at time `t_now`. -/
noncomputable def trade_rate_per_s (trade_ts : List ℤ) (t_now : ℤ)
    (window_s : ℝ) : ℝ :=
  if trade_ts.isEmpty then 0
  else (countRecent trade_ts (t_now - pyInt (window_s * 1000)) : ℝ) / max window_s 1e-9

/-- Embeds `Quoter.estimate_U_proxy`: square root of the trade count in a 6 h
window. -/
noncomputable def estimate_U_proxy (trade_ts : List ℤ) (t_now : ℤ) : ℝ :=
  Real.sqrt (countRecent trade_ts (t_now - 6 * 3600 * 1000))

/-- The diagnostic metrics of `Quoter.compute`. -/
structure QuoteMetrics where
  p_mid : ℝ
  qhat : ℝ
  gamma : ℝ
  lambda : ℝ
  sigma : ℝ
  delta_logit : ℝ
  r_logit : ℝ

/-- The result of `Quoter.compute`. -/
structure QuoteOut where
  metrics : QuoteMetrics
  bids : List QOrder
  asks : List QOrder

/-- The liquidity half-spread of `Quoter.compute`:
`(1/γ)·ln(1 + γ/max(κ, 1e-9))` with `κ = κ_0·(1 + rate/rate_ref)`. -/
noncomputable def delta_liq (cfg : Cfg) (gamma rate : ℝ) : ℝ :=
  let kappa := cfg.kappa0 * (1 + rate / max cfg.rate_ref_per_s 1e-9)
  (1 / gamma) * Real.log (1 + gamma / max kappa 1e-9)

/-- The clipped base half-spread of `Quoter.compute`:
`clip(Δ_risk + Δ_liq, 0, max_half_spread_logit)`. -/
noncomputable def base_half_spread (cfg : Cfg) (gamma lam sigma rate : ℝ) : ℝ :=
  clip (cfg.c_risk * gamma * lam * sigma + delta_liq cfg gamma rate)
    0 cfg.max_half_spread_logit

/-- Embeds `Quoter.compute`, with the ambient state passed explicitly: the book's
`mid` and `tick_size`, the trade-timestamp history, the indicator state and
the wall clock `t_now`. -/
noncomputable def compute (cfg : Cfg) (mid tick : ℝ) (trade_ts : List ℤ)
    (ind : IndState) (q_yes : ℝ) (t_now : ℤ) : QuoteOut :=
  let p := clip mid 1e-6 (1 - 1e-6)
  let qhat := q_hat cfg q_yes p t_now
  let gamma := gammaInd cfg qhat
  let U := estimate_U_proxy trade_ts t_now
  let lam := lambda_struct cfg p U
  let sigma := ind.sigma_smoothed
  let delta := qhat * gamma * lam * sigma
  let m := logit p
  let r_x := m - delta
  let rate := trade_rate_per_s trade_ts t_now 60
  let h := base_half_spread cfg gamma lam sigma rate
  let Bs := B_side cfg * time_factor cfg t_now
  let ladder := build_v1_ladder r_x h h tick Bs cfg.ladder_decay
    cfg.ladder_step_mult cfg.ladder_min_step_logit cfg.ladder_max_levels
  { metrics :=
      { p_mid := p
        qhat := qhat
        gamma := gamma
        lambda := lam
        sigma := sigma
        delta_logit := delta
        r_logit := r_x }
    bids := clean_orders cfg.asset_id_yes cfg.min_order_size
      cfg.max_order_notional_side Side.BUY ladder.bids 0
    asks := clean_orders cfg.asset_id_yes cfg.min_order_size
      cfg.max_order_notional_side Side.SELL ladder.asks 0 }

/-! Section: general helper lemmas -/

lemma le_clip (x lo hi : ℝ) : lo ≤ clip x lo hi := le_max_left _ _

lemma clip_le (x : ℝ) {lo hi : ℝ} (h : lo ≤ hi) : clip x lo hi ≤ hi :=
  max_le h (min_le_left _ _)

lemma clip_of_mem {x lo hi : ℝ} (h1 : lo ≤ x) (h2 : x ≤ hi) :
    clip x lo hi = x := by
  unfold clip
  rw [min_eq_right h2, max_eq_right h1]

/-- Convexity bound for the EMA update: with a nonnegative time step the
new value stays between any common bounds of the old value and the new
observation. -/
lemma ema_mem {lo hi prev x : ℝ} (tau_s : ℝ) {dt_s : ℝ} (hdt : 0 ≤ dt_s)
    (hp1 : lo ≤ prev) (hp2 : prev ≤ hi) (hx1 : lo ≤ x) (hx2 : x ≤ hi) :
    lo ≤ ema prev x tau_s dt_s ∧ ema prev x tau_s dt_s ≤ hi := by
  unfold ema
  split
  · exact ⟨hx1, hx2⟩
  · rename_i htau
    push_neg at htau
    set a := 1 - Real.exp (-dt_s / tau_s) with ha
    have ha0 : 0 ≤ a := by
      have h1 : Real.exp (-dt_s / tau_s) ≤ 1 := by
        rw [Real.exp_le_one_iff, neg_div]
        exact neg_nonpos.mpr (div_nonneg hdt htau.le)
      rw [ha]
      linarith
    have ha1 : a ≤ 1 := by
      have h2 := Real.exp_pos (-dt_s / tau_s)
      rw [ha]
      linarith
    constructor
    · nlinarith [mul_nonneg ha0 (sub_nonneg.2 hx1),
        mul_nonneg (sub_nonneg.2 ha1) (sub_nonneg.2 hp1)]
    · nlinarith [mul_nonneg ha0 (sub_nonneg.2 hx2),
        mul_nonneg (sub_nonneg.2 ha1) (sub_nonneg.2 hp2)]

/-! Section: reconciler lemmas -/

lemma reconcileWants_claimed_mono (cf : String → Bool) (m : List OpenOrder)
    (wanted : List DesiredOrder) (claimed : List ℚ) (q : ℚ) (hq : q ∈ claimed) :
    q ∈ (reconcileWants cf m wanted claimed).2 := by
  induction wanted generalizing claimed with
  | nil => simpa [reconcileWants]
  | cons w rest ih =>
    unfold reconcileWants
    cases h : findMatch m w.price with
    | some o =>
      simp only [h]
      exact ih _ (List.mem_append_left _ hq)
    | none =>
      simp only [h]
      exact ih _ hq

lemma reconcileWants_claims (cf : String → Bool) (m : List OpenOrder)
    (wanted : List DesiredOrder) (claimed : List ℚ) (w : DesiredOrder)
    (hw : w ∈ wanted) (o : OpenOrder) (ho : findMatch m w.price = some o) :
    o.price ∈ (reconcileWants cf m wanted claimed).2 := by
  induction wanted generalizing claimed with
  | nil => cases hw
  | cons w' rest ih =>
    unfold reconcileWants
    rcases List.mem_cons.1 hw with heq | hw'
    · subst heq
      simp only [ho]
      exact reconcileWants_claimed_mono _ _ _ _ _ (by simp)
    · cases h : findMatch m w'.price with
      | some o' =>
        simp only [h]
        exact ih _ hw'
      | none =>
        simp only [h]
        exact ih _ hw'

lemma reconcileWants_ops_nil (cf : String → Bool) (m : List OpenOrder)
    (wanted : List DesiredOrder) (claimed : List ℚ)
    (h : ∀ w ∈ wanted,
      (findMatch m w.price).map OpenOrder.size_remaining = some w.size) :
    (reconcileWants cf m wanted claimed).1 = [] := by
  induction wanted generalizing claimed with
  | nil => rfl
  | cons w rest ih =>
    have hw := h w (List.mem_cons_self _ _)
    cases hm : findMatch m w.price with
    | none => rw [hm] at hw; cases hw
    | some o =>
      rw [hm] at hw
      have hsz : o.size_remaining = w.size := by simpa using hw
      unfold reconcileWants
      simp only [hm]
      have hops : matchedOps cf w o = [] := by
        unfold matchedOps
        rw [hsz]
        simp
      rw [hops, List.nil_append]
      exact ih _ (fun w' hw' => h w' (List.mem_cons_of_mem _ hw'))

/-! Section: claim C1 -/

/-- C1 (reconciler idempotence): if the venue state left by the first run
matches the unchanged desired ladder — every desired level's price-matched
open order has exactly the desired size, and every open order of the traded
asset is the match of some desired level — then a second `_reconcile` run
issues no `place_limit_order` and no `cancel_order` operations. -/
theorem C1_reconcile_idempotent (cancelFails : String → Bool)
    (asset_id : String) (bids asks : List DesiredOrder)
    (openOrders : List OpenOrder)
    (hb1 : ∀ w ∈ bids,
      (findMatch (buildMaps asset_id openOrders).1 w.price).map
        OpenOrder.size_remaining = some w.size)
    (hb2 : ∀ o ∈ (buildMaps asset_id openOrders).1,
      ∃ w ∈ bids, findMatch (buildMaps asset_id openOrders).1 w.price = some o)
    (ha1 : ∀ w ∈ asks,
      (findMatch (buildMaps asset_id openOrders).2 w.price).map
        OpenOrder.size_remaining = some w.size)
    (ha2 : ∀ o ∈ (buildMaps asset_id openOrders).2,
      ∃ w ∈ asks, findMatch (buildMaps asset_id openOrders).2 w.price = some o) :
    reconcile cancelFails asset_id bids asks openOrders = [] := by
  have side : ∀ (wanted : List DesiredOrder) (m : List OpenOrder),
      (∀ w ∈ wanted,
        (findMatch m w.price).map OpenOrder.size_remaining = some w.size) →
      (∀ o ∈ m, ∃ w ∈ wanted, findMatch m w.price = some o) →
      reconcile_side cancelFails wanted m = [] := by
    intro wanted m h1 h2
    simp only [reconcile_side]
    rw [reconcileWants_ops_nil _ _ _ _ h1, List.nil_append]
    unfold pruneOps
    have hfil : (m.filter
        (fun o => !((reconcileWants cancelFails m wanted []).2.contains o.price))) = [] := by
      rw [List.filter_eq_nil_iff]
      intro o ho
      obtain ⟨w, hw, hfm⟩ := h2 o ho
      have hmem := reconcileWants_claims cancelFails m wanted [] w hw o hfm
      simp [hmem]
    rw [hfil]
    rfl
  simp only [reconcile]
  rw [side bids _ hb1 hb2, side asks _ ha1 ha2]
  rfl

/-- Witness for C1 at the S3 fixed point: one bid and one ask, each matched
by an open order of the desired size. -/
theorem C1_reconcile_idempotent_witness :
    (∀ w ∈ ([⟨"A", Side.BUY, 2/5, 30⟩] : List DesiredOrder),
      (findMatch (buildMaps "A" [⟨"o1", "A", Side.BUY, 2/5, 30, 30⟩,
          ⟨"o2", "A", Side.SELL, 3/5, 5, 5⟩]).1 w.price).map
        OpenOrder.size_remaining = some w.size) ∧
    (∀ o ∈ (buildMaps "A" [⟨"o1", "A", Side.BUY, 2/5, 30, 30⟩,
        ⟨"o2", "A", Side.SELL, 3/5, 5, 5⟩]).1,
      ∃ w ∈ ([⟨"A", Side.BUY, 2/5, 30⟩] : List DesiredOrder),
        findMatch (buildMaps "A" [⟨"o1", "A", Side.BUY, 2/5, 30, 30⟩,
          ⟨"o2", "A", Side.SELL, 3/5, 5, 5⟩]).1 w.price = some o) ∧
    reconcile (fun _ => false) "A" [⟨"A", Side.BUY, 2/5, 30⟩]
      [⟨"A", Side.SELL, 3/5, 5⟩]
      [⟨"o1", "A", Side.BUY, 2/5, 30, 30⟩,
        ⟨"o2", "A", Side.SELL, 3/5, 5, 5⟩] = [] := by
  have hmaps : buildMaps "A" [⟨"o1", "A", Side.BUY, 2/5, 30, 30⟩,
      ⟨"o2", "A", Side.SELL, 3/5, 5, 5⟩] =
      ([⟨"o1", "A", Side.BUY, 2/5, 30, 30⟩],
        [⟨"o2", "A", Side.SELL, 3/5, 5, 5⟩]) := by
    norm_num [buildMaps, mapInsert]
  have hb1 : ∀ w ∈ ([⟨"A", Side.BUY, 2/5, 30⟩] : List DesiredOrder),
      (findMatch (buildMaps "A" [⟨"o1", "A", Side.BUY, 2/5, 30, 30⟩,
          ⟨"o2", "A", Side.SELL, 3/5, 5, 5⟩]).1 w.price).map
        OpenOrder.size_remaining = some w.size := by
    rw [hmaps]
    norm_num [findMatch, List.find?]
  have hb2 : ∀ o ∈ (buildMaps "A" [⟨"o1", "A", Side.BUY, 2/5, 30, 30⟩,
        ⟨"o2", "A", Side.SELL, 3/5, 5, 5⟩]).1,
      ∃ w ∈ ([⟨"A", Side.BUY, 2/5, 30⟩] : List DesiredOrder),
        findMatch (buildMaps "A" [⟨"o1", "A", Side.BUY, 2/5, 30, 30⟩,
          ⟨"o2", "A", Side.SELL, 3/5, 5, 5⟩]).1 w.price = some o := by
    rw [hmaps]
    norm_num [findMatch, List.find?]
  have ha1 : ∀ w ∈ ([⟨"A", Side.SELL, 3/5, 5⟩] : List DesiredOrder),
      (findMatch (buildMaps "A" [⟨"o1", "A", Side.BUY, 2/5, 30, 30⟩,
          ⟨"o2", "A", Side.SELL, 3/5, 5, 5⟩]).2 w.price).map
        OpenOrder.size_remaining = some w.size := by
    rw [hmaps]
    norm_num [findMatch, List.find?]
  have ha2 : ∀ o ∈ (buildMaps "A" [⟨"o1", "A", Side.BUY, 2/5, 30, 30⟩,
        ⟨"o2", "A", Side.SELL, 3/5, 5, 5⟩]).2,
      ∃ w ∈ ([⟨"A", Side.SELL, 3/5, 5⟩] : List DesiredOrder),
        findMatch (buildMaps "A" [⟨"o1", "A", Side.BUY, 2/5, 30, 30⟩,
          ⟨"o2", "A", Side.SELL, 3/5, 5, 5⟩]).2 w.price = some o := by
    rw [hmaps]
    norm_num [findMatch, List.find?]
  exact ⟨hb1, hb2,
    C1_reconcile_idempotent (fun _ => false) "A" _ _ _ hb1 hb2 ha1 ha2⟩

/-! Section: claim C5 -/

/-- C5 (reconciler resize rule): a desired level matched (within `1e-9`)
to an existing open order whose remaining size differs relatively by more
than 0.25 triggers a cancel followed by a place at the desired price and
size; when the cancel fails, no place is issued for that level. -/
theorem C5_resize_rule (cancelFails : String → Bool) (m : List OpenOrder)
    (w : DesiredOrder) (o : OpenOrder)
    (hfound : findMatch m w.price = some o)
    (hdiff : 1/4 <
      |w.size - o.size_remaining| / max o.size_remaining (1/1000000000)) :
    reconcile_side cancelFails [w] m =
      (if cancelFails o.order_id then [Op.cancel o.order_id]
        else [Op.cancel o.order_id,
          Op.place w.asset_id w.side w.price w.size]) ++ pruneOps [o.price] m := by
  unfold reconcile_side reconcileWants
  simp only [hfound]
  unfold reconcileWants matchedOps
  rw [if_pos hdiff]
  cases cancelFails o.order_id <;> simp

/-! Section: claim C7 -/

/-- C7 (mid-price update rule): after `on_book`, `mid` equals the average
of the updated best bid and ask exactly when `best_bid > 0`, `best_ask < 1`
and `best_bid < best_ask`, and is otherwise unchanged; in particular a book
message carrying best bid `bb` and best ask `ba` with `0 < bb < ba < 1`
leaves `mid = (bb + ba)/2`. -/
theorem C7_mid_update (s : BookState) (m : BookMsg) :
    ((on_book s m).mid =
      if 0 < (on_book s m).best_bid ∧ (on_book s m).best_ask < 1 ∧
          (on_book s m).best_bid < (on_book s m).best_ask then
        ((on_book s m).best_bid + (on_book s m).best_ask) / 2
      else s.mid) ∧
    (∀ (bb ba : ℚ) (tb ta : List ℚ),
      effSide m.bids m.buys = bb :: tb → effSide m.asks m.sells = ba :: ta →
      0 < bb → bb < ba → ba < 1 → (on_book s m).mid = (bb + ba) / 2) := by
  have hup : ∀ st : BookState,
      (update_mid st).mid =
        (if 0 < st.best_bid ∧ st.best_ask < 1 ∧ st.best_bid < st.best_ask then
          (st.best_bid + st.best_ask) / 2 else st.mid) ∧
      (update_mid st).best_bid = st.best_bid ∧
      (update_mid st).best_ask = st.best_ask := by
    intro st
    unfold update_mid
    split <;> simp_all
  constructor
  · simp only [on_book]
    cases hb : effSide m.bids m.buys <;>
      cases ha : effSide m.asks m.sells <;>
      (rw [(hup _).2.1, (hup _).2.2]; exact (hup _).1)
  · intro bb ba tb ta hb ha h1 h2 h3
    simp only [on_book, hb, ha]
    rw [(hup _).1]
    split
    · rfl
    · rename_i hneg
      exact absurd ⟨h1, h3, h2⟩ hneg

/-- Witness for C7: a concrete book message with `bb = 2/5 < ba = 3/5`. -/
theorem C7_mid_update_witness :
    effSide (some [(2:ℚ)/5, 1/5]) none = [(2:ℚ)/5, 1/5] ∧
    effSide (some [(3:ℚ)/5]) none = [(3:ℚ)/5] ∧
    (on_book {} { bids := some [(2:ℚ)/5, 1/5], asks := some [(3:ℚ)/5] }).mid =
      ((2:ℚ)/5 + 3/5) / 2 := by
  refine ⟨by norm_num [effSide], by norm_num [effSide], ?_⟩
  exact (C7_mid_update {} { bids := some [(2:ℚ)/5, 1/5], asks := some [(3:ℚ)/5] }).2
    (2/5) (3/5) [1/5] [] (by norm_num [effSide]) (by norm_num [effSide])
    (by norm_num) (by norm_num) (by norm_num)

/-- Witness for C5 at the S3 inputs: desired size 30 against remaining
size 10, relative difference 2 > 0.25, with a succeeding cancel. -/
theorem C5_resize_rule_witness :
    findMatch [⟨"o1", "A", Side.BUY, 2/5, 10, 10⟩] ((2:ℚ)/5) =
      some ⟨"o1", "A", Side.BUY, 2/5, 10, 10⟩ ∧
    (1:ℚ)/4 < |(30:ℚ) - 10| / max 10 (1/1000000000) ∧
    reconcile_side (fun _ => false) [⟨"A", Side.BUY, 2/5, 30⟩]
        [⟨"o1", "A", Side.BUY, 2/5, 10, 10⟩] =
      (if (fun (_ : String) => false) "o1" then [Op.cancel "o1"]
        else [Op.cancel "o1", Op.place "A" Side.BUY (2/5) 30]) ++
        pruneOps [2/5] [⟨"o1", "A", Side.BUY, 2/5, 10, 10⟩] := by
  have hfm : findMatch [⟨"o1", "A", Side.BUY, 2/5, 10, 10⟩] ((2:ℚ)/5) =
      some ⟨"o1", "A", Side.BUY, 2/5, 10, 10⟩ := by
    norm_num [findMatch, List.find?]
  have hd : (1:ℚ)/4 < |(30:ℚ) - 10| / max 10 (1/1000000000) := by norm_num
  exact ⟨hfm, hd,
    C5_resize_rule (fun _ => false) _ ⟨"A", Side.BUY, 2/5, 30⟩
      ⟨"o1", "A", Side.BUY, 2/5, 10, 10⟩ hfm hd⟩

/-! Section: claim C9 -/

/-- C9 (gamma total at full inventory): `|qhat|` is clamped to at most
`0.999999`, so the base `1 - u` of the power stays strictly positive (the
division-by-zero branch of the spec formula is unreachable) and the result
lies in `[1, gamma_max]`. -/
theorem C9_gamma_total (cfg : Cfg) (qhat : ℝ) (hg : 1 ≤ cfg.gamma_max) :
    clip |qhat| 0 0.999999 ≤ 0.999999 ∧
    0 < 1 - clip |qhat| 0 0.999999 ∧
    1 ≤ gammaInd cfg qhat ∧ gammaInd cfg qhat ≤ cfg.gamma_max := by
  have h1 : clip |qhat| 0 0.999999 ≤ 0.999999 := clip_le _ (by norm_num)
  exact ⟨h1, by linarith, le_clip _ _ _, clip_le _ hg⟩

/-- Witness for C9 at full inventory `qhat = 1` under the default
configuration. -/
theorem C9_gamma_total_witness :
    (1:ℝ) ≤ defaultCfg.gamma_max ∧
    0 < 1 - clip |(1:ℝ)| 0 0.999999 ∧
    1 ≤ gammaInd defaultCfg 1 ∧ gammaInd defaultCfg 1 ≤ defaultCfg.gamma_max := by
  have hg : (1:ℝ) ≤ defaultCfg.gamma_max := by norm_num [defaultCfg]
  have h := C9_gamma_total defaultCfg 1 hg
  exact ⟨hg, h.2.1, h.2.2.1, h.2.2.2⟩

/-! Section: claim C10 -/

lemma gammaInd_zero {cfg : Cfg} (hg : 1 ≤ cfg.gamma_max) :
    gammaInd cfg 0 = 1 := by
  have hu : clip |(0:ℝ)| 0 0.999999 = 0 := by
    unfold clip
    norm_num
  unfold gammaInd
  rw [hu]
  show clip (1 / (1 - 0) ^ cfg.gamma_a) 1 cfg.gamma_max = 1
  rw [sub_zero, Real.one_rpow, div_one]
  unfold clip
  rw [min_eq_right hg, max_self]

/-- C10 (non-positive Kelly cap): whenever `q_max ≤ 0` at the quoter's
clipped mid, `q_hat` returns exactly 0, and the quoter's metrics show
neutral inventory: `gamma = 1` and zero skew `delta = 0`. -/
theorem C10_qmax_nonpos_neutral (cfg : Cfg) (mid tick : ℝ)
    (trade_ts : List ℤ) (ind : IndState) (q_yes : ℝ) (t_now : ℤ)
    (hg : 1 ≤ cfg.gamma_max)
    (hq : q_max cfg (clip mid 1e-6 (1 - 1e-6)) q_yes t_now ≤ 0) :
    q_hat cfg q_yes (clip mid 1e-6 (1 - 1e-6)) t_now = 0 ∧
    (compute cfg mid tick trade_ts ind q_yes t_now).metrics.qhat = 0 ∧
    (compute cfg mid tick trade_ts ind q_yes t_now).metrics.gamma = 1 ∧
    (compute cfg mid tick trade_ts ind q_yes t_now).metrics.delta_logit = 0 := by
  have hqh : q_hat cfg q_yes (clip mid 1e-6 (1 - 1e-6)) t_now = 0 := by
    unfold q_hat
    rw [if_neg]
    push_neg
    exact hq
  refine ⟨hqh, hqh, ?_, ?_⟩
  · show gammaInd cfg (q_hat cfg q_yes (clip mid 1e-6 (1 - 1e-6)) t_now) = 1
    rw [hqh]
    exact gammaInd_zero hg
  · show q_hat cfg q_yes (clip mid 1e-6 (1 - 1e-6)) t_now *
      gammaInd cfg (q_hat cfg q_yes (clip mid 1e-6 (1 - 1e-6)) t_now) *
      lambda_struct cfg (clip mid 1e-6 (1 - 1e-6))
        (estimate_U_proxy trade_ts t_now) * ind.sigma_smoothed = 0
    rw [hqh]
    ring

/-- A configuration whose market resolves at its start (so `time_factor`
vanishes at `t = 0`): used to exercise the `q_max ≤ 0` branch. -/
noncomputable def c10Cfg : Cfg := { defaultCfg with resolve_ts_ms := 0 }

lemma c10_time_factor_zero : time_factor c10Cfg 0 = 0 := by
  unfold time_factor c10Cfg defaultCfg
  norm_num

/-- Witness for C10: at market resolution the Kelly cap is 0 and the
quoter reports `gamma = 1`, `delta = 0`. -/
theorem C10_qmax_nonpos_neutral_witness :
    (1:ℝ) ≤ c10Cfg.gamma_max ∧
    q_max c10Cfg (clip (1/2) 1e-6 (1 - 1e-6)) 7 0 ≤ 0 ∧
    q_hat c10Cfg 7 (clip (1/2) 1e-6 (1 - 1e-6)) 0 = 0 ∧
    (compute c10Cfg (1/2) (1/100) [] indInit 7 0).metrics.gamma = 1 ∧
    (compute c10Cfg (1/2) (1/100) [] indInit 7 0).metrics.delta_logit = 0 := by
  have hg : (1:ℝ) ≤ c10Cfg.gamma_max := by norm_num [c10Cfg, defaultCfg]
  have hq : q_max c10Cfg (clip (1/2) 1e-6 (1 - 1e-6)) 7 0 ≤ 0 := by
    unfold q_max
    rw [c10_time_factor_zero]
    simp
  have h := C10_qmax_nonpos_neutral c10Cfg (1/2) (1/100) [] indInit 7 0 hg hq
  exact ⟨hg, hq, h.1, h.2.2.1, h.2.2.2⟩

/-! Section: claim C8 -/

/-- C8 (amended totality of the numeric primitives): `logit` always takes
the log of a strictly positive quotient (its argument is clipped into
`(0,1)`), both `sigmoid` branches have strictly positive denominators and
non-positive exponent arguments are used (`exp(-x)` for `x ≥ 0`, `exp x`
otherwise), and the tick-rounding helpers are defined for every finite
input with a nonzero tick; `tick = 0` raises `ZeroDivisionError`, so the
quantification over every finite `t` is restricted to `t ≠ 0`. -/
theorem C8_totality :
    (∀ p : ℝ, 0 < clip p 1e-6 (1 - 1e-6) ∧ clip p 1e-6 (1 - 1e-6) < 1 ∧
      0 < clip p 1e-6 (1 - 1e-6) / (1 - clip p 1e-6 (1 - 1e-6)) ∧
      logit p = Real.log
        (clip p 1e-6 (1 - 1e-6) / (1 - clip p 1e-6 (1 - 1e-6)))) ∧
    (∀ x : ℝ, 0 < 1 + Real.exp (-x) ∧ 0 < 1 + Real.exp x ∧
      (0 ≤ x → sigmoid x = 1 / (1 + Real.exp (-x))) ∧
      (¬ 0 ≤ x → sigmoid x = Real.exp x / (1 + Real.exp x))) ∧
    (∀ x t : ℝ, t ≠ 0 →
      floor_to_tick x t = some ((⌊x / t⌋ : ℝ) * t) ∧
      ceil_to_tick x t = some ((⌈x / t⌉ : ℝ) * t)) := by
  refine ⟨fun p => ?_, fun x => ?_, fun x t ht => ?_⟩
  · have h1 : (0:ℝ) < clip p 1e-6 (1 - 1e-6) :=
      lt_of_lt_of_le (by norm_num) (le_clip _ _ _)
    have h2 : clip p 1e-6 (1 - 1e-6) < 1 :=
      lt_of_le_of_lt (clip_le _ (by norm_num)) (by norm_num)
    exact ⟨h1, h2, div_pos h1 (by linarith), rfl⟩
  · exact ⟨by positivity, by positivity,
      fun h => by simp only [sigmoid, if_pos h],
      fun h => by simp only [sigmoid, if_neg h]⟩
  · exact ⟨by simp only [floor_to_tick, if_neg ht],
      by simp only [ceil_to_tick, if_neg ht]⟩

/-- C8 counterexample: at tick `t = 0` both tick-rounding helpers hit
Python's `ZeroDivisionError` (modelled as `none`), so they are not total
over every finite real pair, contrary to the claim. -/
theorem C8_counterexample :
    floor_to_tick 1 0 = none ∧ ceil_to_tick 1 0 = none := by
  constructor <;> simp [floor_to_tick, ceil_to_tick]

/-- Witness for C8 at `x = 1`, `t = 1/100` and `p = 1/2`. -/
theorem C8_totality_witness :
    ((1:ℝ)/100 ≠ 0) ∧
    floor_to_tick 1 (1/100) = some ((⌊(1:ℝ) / (1/100)⌋ : ℝ) * (1/100)) ∧
    logit (1/2) = Real.log
      (clip (1/2) 1e-6 (1 - 1e-6) / (1 - clip (1/2) 1e-6 (1 - 1e-6))) := by
  have ht : (1:ℝ)/100 ≠ 0 := by norm_num
  exact ⟨ht, (C8_totality.2.2 1 (1/100) ht).1, (C8_totality.1 (1/2)).2.2.2⟩

/-! Section: claim C2 -/

lemma sigma_step_bounds (cfg : Cfg) (hs : 1 ≤ cfg.sigma_max)
    (hdt : 0 ≤ cfg.dt_sample_s) (st : IndState)
    (h1 : 1 ≤ st.sigma_smoothed) (h2 : st.sigma_smoothed ≤ cfg.sigma_max)
    (t : ℤ) (p rate : ℝ) :
    1 ≤ (on_time_sample cfg st t p rate).sigma_smoothed ∧
      (on_time_sample cfg st t p rate).sigma_smoothed ≤ cfg.sigma_max := by
  simp only [on_time_sample]
  split
  · exact ⟨h1, h2⟩
  · rename_i last_ts heq
    by_cases hlt : t - last_ts < pyInt (cfg.dt_sample_s * 1000) - 10
    · rw [if_pos hlt]
      exact ⟨h1, h2⟩
    · rw [if_neg hlt]
      exact ema_mem _ hdt h1 h2 (le_clip _ _ _) (clip_le _ hs)

lemma runSamples_sigma_bounds (cfg : Cfg) (hs : 1 ≤ cfg.sigma_max)
    (hdt : 0 ≤ cfg.dt_sample_s) (samples : List (ℤ × ℝ × ℝ)) (st : IndState)
    (h1 : 1 ≤ st.sigma_smoothed) (h2 : st.sigma_smoothed ≤ cfg.sigma_max) :
    1 ≤ (runSamples cfg st samples).sigma_smoothed ∧
      (runSamples cfg st samples).sigma_smoothed ≤ cfg.sigma_max := by
  induction samples generalizing st with
  | nil => exact ⟨h1, h2⟩
  | cons s rest ih =>
    obtain ⟨t, p, rate⟩ := s
    have h := sigma_step_bounds cfg hs hdt st h1 h2 t p rate
    exact ih _ h.1 h.2

/-- C2 (amended risk-quantity bounds): with an ordered configuration
(`1 ≤ gamma_max`, `lambda_min ≤ lambda_max`, `1 ≤ sigma_max`,
`0 ≤ dt_sample_s`, `0 ≤ eta_time`), `gamma ∈ [1, gamma_max]` for every
`qhat`, `lambda_struct ∈ [lambda_min, lambda_max]` for every `p` and
`U ≥ 0`, `sigma ∈ [1, sigma_max]` after any sequence of samples,
`|q_hat| ≤ 1` always, and `time_factor ∈ [0, 1]` for every
`t ≥ start_ts_ms` (for `t` before the market start the code exceeds 1, so
the original unrestricted bound is false). -/
theorem C2_risk_bounds (cfg : Cfg) (hg : 1 ≤ cfg.gamma_max)
    (hl : cfg.lambda_min ≤ cfg.lambda_max) (hs : 1 ≤ cfg.sigma_max)
    (hdt : 0 ≤ cfg.dt_sample_s) (heta : 0 ≤ cfg.eta_time) :
    (∀ qhat : ℝ, 1 ≤ gammaInd cfg qhat ∧ gammaInd cfg qhat ≤ cfg.gamma_max) ∧
    (∀ p U : ℝ, 0 ≤ U →
      cfg.lambda_min ≤ lambda_struct cfg p U ∧
        lambda_struct cfg p U ≤ cfg.lambda_max) ∧
    (∀ samples : List (ℤ × ℝ × ℝ),
      1 ≤ (runSamples cfg indInit samples).sigma_smoothed ∧
        (runSamples cfg indInit samples).sigma_smoothed ≤ cfg.sigma_max) ∧
    (∀ (q p : ℝ) (t : ℤ), |q_hat cfg q p t| ≤ 1) ∧
    (∀ t : ℤ, cfg.start_ts_ms ≤ t →
      0 ≤ time_factor cfg t ∧ time_factor cfg t ≤ 1) := by
  refine ⟨fun qhat => ⟨le_clip _ _ _, clip_le _ hg⟩,
    fun p U _ => ⟨le_clip _ _ _, clip_le _ hl⟩,
    fun samples =>
      runSamples_sigma_bounds cfg hs hdt samples indInit le_rfl hs,
    fun q p t => ?_, fun t ht => ?_⟩
  · simp only [q_hat]
    split
    · rw [abs_le]
      exact ⟨le_clip _ _ _, clip_le _ (by norm_num)⟩
    · simp
  · simp only [time_factor]
    split
    · rename_i hT
      have htau0 : (0:ℝ) ≤ ((max (cfg.resolve_ts_ms - t) 0 : ℤ) : ℝ) / 1000 := by
        have : (0:ℤ) ≤ max (cfg.resolve_ts_ms - t) 0 := le_max_right _ _
        have hc : (0:ℝ) ≤ ((max (cfg.resolve_ts_ms - t) 0 : ℤ) : ℝ) := by
          exact_mod_cast this
        linarith
      have hfrac0 : 0 ≤ ((max (cfg.resolve_ts_ms - t) 0 : ℤ) : ℝ) / 1000 /
          (((max (cfg.resolve_ts_ms - cfg.start_ts_ms) 1 : ℤ) : ℝ) / 1000) :=
        div_nonneg htau0 hT.le
      have hint : (max (cfg.resolve_ts_ms - t) 0 : ℤ) ≤
          max (cfg.resolve_ts_ms - cfg.start_ts_ms) 1 := by
        apply max_le
        · exact le_trans (by omega) (le_max_left _ _)
        · exact le_trans (by omega) (le_max_right _ _)
      have hfrac1 : ((max (cfg.resolve_ts_ms - t) 0 : ℤ) : ℝ) / 1000 /
          (((max (cfg.resolve_ts_ms - cfg.start_ts_ms) 1 : ℤ) : ℝ) / 1000) ≤ 1 := by
        rw [div_le_one hT]
        have hc : ((max (cfg.resolve_ts_ms - t) 0 : ℤ) : ℝ) ≤
            ((max (cfg.resolve_ts_ms - cfg.start_ts_ms) 1 : ℤ) : ℝ) := by
          exact_mod_cast hint
        linarith
      exact ⟨Real.rpow_nonneg hfrac0 _, Real.rpow_le_one hfrac0 hfrac1 heta⟩
    · exact ⟨by norm_num, le_rfl⟩

/-- A one-second market used to refute the unrestricted time-factor bound:
`start_ts_ms = 0`, `resolve_ts_ms = 1000`. -/
noncomputable def c2Cfg : Cfg := { defaultCfg with resolve_ts_ms := 1000 }

/-- C2 counterexample: at `t = -1000`, one second before the market start,
`time_factor = (2000/1000)^0.5 = sqrt 2 > 1`, so the claimed bound
`time_factor(t) ∈ [0,1]` for every `t` (including `t < start_ts_ms`) is
false on the code. -/
theorem C2_counterexample : ¬ time_factor c2Cfg (-1000) ≤ 1 := by
  have hval : time_factor c2Cfg (-1000) = (2:ℝ) ^ (0.5:ℝ) := by
    unfold time_factor c2Cfg defaultCfg
    norm_num
  rw [hval]
  push_neg
  rw [Real.one_lt_rpow_iff_of_pos (by norm_num)]
  left
  constructor <;> norm_num

/-- Witness for C2 under the default configuration: each bound
instantiated at a concrete input. -/
theorem C2_risk_bounds_witness :
    ((1:ℝ) ≤ defaultCfg.gamma_max ∧
      defaultCfg.lambda_min ≤ defaultCfg.lambda_max ∧
      (1:ℝ) ≤ defaultCfg.sigma_max ∧ (0:ℝ) ≤ defaultCfg.dt_sample_s ∧
      (0:ℝ) ≤ defaultCfg.eta_time) ∧
    (1 ≤ gammaInd defaultCfg (1/2) ∧
      gammaInd defaultCfg (1/2) ≤ defaultCfg.gamma_max) ∧
    (defaultCfg.lambda_min ≤ lambda_struct defaultCfg (1/2) 0 ∧
      lambda_struct defaultCfg (1/2) 0 ≤ defaultCfg.lambda_max) ∧
    (1 ≤ (runSamples defaultCfg indInit [(0, 1/2, 0)]).sigma_smoothed ∧
      (runSamples defaultCfg indInit [(0, 1/2, 0)]).sigma_smoothed ≤
        defaultCfg.sigma_max) ∧
    |q_hat defaultCfg 3 (1/2) 0| ≤ 1 ∧
    (0 ≤ time_factor defaultCfg 0 ∧ time_factor defaultCfg 0 ≤ 1) := by
  have hg : (1:ℝ) ≤ defaultCfg.gamma_max := by norm_num [defaultCfg]
  have hl : defaultCfg.lambda_min ≤ defaultCfg.lambda_max := by
    norm_num [defaultCfg]
  have hs : (1:ℝ) ≤ defaultCfg.sigma_max := by norm_num [defaultCfg]
  have hdt : (0:ℝ) ≤ defaultCfg.dt_sample_s := by norm_num [defaultCfg]
  have heta : (0:ℝ) ≤ defaultCfg.eta_time := by norm_num [defaultCfg]
  have h := C2_risk_bounds defaultCfg hg hl hs hdt heta
  exact ⟨⟨hg, hl, hs, hdt, heta⟩, h.1 (1/2), h.2.1 (1/2) 0 le_rfl,
    h.2.2.1 [(0, 1/2, 0)], h.2.2.2.1 3 (1/2) 0,
    h.2.2.2.2 0 (by norm_num [defaultCfg])⟩

/-! Section: sigmoid and tick-rounding lemmas -/

lemma sigmoid_eq (x : ℝ) : sigmoid x = 1 / (1 + Real.exp (-x)) := by
  unfold sigmoid
  split
  · rfl
  · rw [div_eq_div_iff (by positivity) (by positivity)]
    have h1 : Real.exp x * Real.exp (-x) = 1 := by
      rw [← Real.exp_add]
      simp
    linear_combination h1

lemma sigmoid_pos (x : ℝ) : 0 < sigmoid x := by
  rw [sigmoid_eq]
  positivity

lemma sigmoid_lt_one (x : ℝ) : sigmoid x < 1 := by
  rw [sigmoid_eq, div_lt_one (by positivity)]
  have := Real.exp_pos (-x)
  linarith

lemma sigmoid_le_sigmoid {x y : ℝ} (h : x ≤ y) : sigmoid x ≤ sigmoid y := by
  rw [sigmoid_eq, sigmoid_eq]
  have h1 : Real.exp (-y) ≤ Real.exp (-x) := Real.exp_le_exp.2 (by linarith)
  have h2 : (0:ℝ) < 1 + Real.exp (-y) := by positivity
  apply one_div_le_one_div_of_le h2
  linarith

lemma tickFloor_mono {tick : ℝ} (ht : 0 < tick) {a b : ℝ} (h : a ≤ b) :
    (⌊a / tick⌋ : ℝ) * tick ≤ (⌊b / tick⌋ : ℝ) * tick := by
  have h1 : a / tick ≤ b / tick := by
    apply div_le_div_of_nonneg_right h ht.le
  have h2 : (⌊a / tick⌋ : ℝ) ≤ (⌊b / tick⌋ : ℝ) := by
    exact_mod_cast Int.floor_le_floor h1
  exact mul_le_mul_of_nonneg_right h2 ht.le

lemma tickFloor_le {tick : ℝ} (ht : 0 < tick) (a : ℝ) :
    (⌊a / tick⌋ : ℝ) * tick ≤ a := by
  have h1 : (⌊a / tick⌋ : ℝ) ≤ a / tick := Int.floor_le _
  calc (⌊a / tick⌋ : ℝ) * tick ≤ a / tick * tick :=
        mul_le_mul_of_nonneg_right h1 ht.le
    _ = a := div_mul_cancel₀ _ ht.ne'

lemma tickCeil_mono {tick : ℝ} (ht : 0 < tick) {a b : ℝ} (h : a ≤ b) :
    (⌈a / tick⌉ : ℝ) * tick ≤ (⌈b / tick⌉ : ℝ) * tick := by
  have h1 : a / tick ≤ b / tick := by
    apply div_le_div_of_nonneg_right h ht.le
  have h2 : (⌈a / tick⌉ : ℝ) ≤ (⌈b / tick⌉ : ℝ) := by
    exact_mod_cast Int.ceil_le_ceil h1
  exact mul_le_mul_of_nonneg_right h2 ht.le

lemma tickCeil_pos_ge {tick : ℝ} (ht : 0 < tick) {a : ℝ} (ha : 0 < a) :
    1 ≤ ⌈a / tick⌉ := by
  rw [Int.le_ceil_iff]
  simpa using div_pos ha ht

/-! Section: ladder loop lemmas -/

lemma bidLoop_mem {x_b0 base_step tick base_risk_unit decay : ℝ} {e : Level} :
    ∀ {n i : ℕ}, e ∈ bidLoop x_b0 base_step tick base_risk_unit decay n i →
    i ≤ e.level ∧
    e.price = (⌊sigmoid (x_b0 - e.level * base_step) / tick⌋ : ℝ) * tick ∧
    e.size = base_risk_unit * decay ^ e.level / max e.price 0.001 ∧
    0.001 < e.price := by
  intro n
  induction n with
  | zero => intro i he; cases he
  | succ n ih =>
    intro i he
    rw [bidLoop] at he
    split at he
    · cases he
    · rename_i hguard
      push_neg at hguard
      rcases List.mem_cons.1 he with rfl | he'
      · exact ⟨le_refl _, rfl, rfl, hguard⟩
      · obtain ⟨h1, h2, h3, h4⟩ := ih he'
        exact ⟨le_trans (Nat.le_succ i) h1, h2, h3, h4⟩

lemma askLoop_mem {x_a0 base_step tick base_risk_unit decay : ℝ} {e : Level} :
    ∀ {n i : ℕ}, e ∈ askLoop x_a0 base_step tick base_risk_unit decay n i →
    i ≤ e.level ∧
    e.price = (⌈sigmoid (x_a0 + e.level * base_step) / tick⌉ : ℝ) * tick ∧
    e.size = base_risk_unit * decay ^ e.level / max (1 - e.price) 0.001 ∧
    e.price < 0.999 := by
  intro n
  induction n with
  | zero => intro i he; cases he
  | succ n ih =>
    intro i he
    rw [askLoop] at he
    split at he
    · cases he
    · rename_i hguard
      push_neg at hguard
      rcases List.mem_cons.1 he with rfl | he'
      · exact ⟨le_refl _, rfl, rfl, hguard⟩
      · obtain ⟨h1, h2, h3, h4⟩ := ih he'
        exact ⟨le_trans (Nat.le_succ i) h1, h2, h3, h4⟩

lemma bidLoop_price_le {x_b0 base_step tick base_risk_unit decay : ℝ}
    (ht : 0 < tick) (hstep : 0 ≤ base_step) {e : Level} {n i : ℕ}
    (he : e ∈ bidLoop x_b0 base_step tick base_risk_unit decay n i) :
    e.price ≤ (⌊sigmoid (x_b0 - i * base_step) / tick⌋ : ℝ) * tick := by
  obtain ⟨hle, hp, _, _⟩ := bidLoop_mem he
  rw [hp]
  apply tickFloor_mono ht
  apply sigmoid_le_sigmoid
  have h1 : (i:ℝ) * base_step ≤ (e.level:ℝ) * base_step := by
    apply mul_le_mul_of_nonneg_right _ hstep
    exact_mod_cast hle
  linarith

lemma askLoop_price_ge {x_a0 base_step tick base_risk_unit decay : ℝ}
    (ht : 0 < tick) (hstep : 0 ≤ base_step) {e : Level} {n i : ℕ}
    (he : e ∈ askLoop x_a0 base_step tick base_risk_unit decay n i) :
    (⌈sigmoid (x_a0 + i * base_step) / tick⌉ : ℝ) * tick ≤ e.price := by
  obtain ⟨hle, hp, _, _⟩ := askLoop_mem he
  rw [hp]
  apply tickCeil_mono ht
  apply sigmoid_le_sigmoid
  have h1 : (i:ℝ) * base_step ≤ (e.level:ℝ) * base_step := by
    apply mul_le_mul_of_nonneg_right _ hstep
    exact_mod_cast hle
  linarith

/-! Section: dedupe lemmas -/

lemma dedupeStep_subset {seen : List Level} {l e : Level}
    (he : e ∈ dedupeStep seen l) : e ∈ seen ∨ e = l := by
  unfold dedupeStep at he
  split at he
  · obtain ⟨s, hs, hse⟩ := List.mem_map.1 he
    by_cases hc : s.price = l.price ∧ l.level < s.level
    · rw [if_pos hc] at hse
      exact Or.inr hse.symm
    · rw [if_neg hc] at hse
      exact Or.inl (hse ▸ hs)
  · rcases List.mem_append.1 he with h | h
    · exact Or.inl h
    · exact Or.inr (List.mem_singleton.1 h)

lemma foldl_dedupe_subset (L : List Level) :
    ∀ (acc : List Level) (e : Level),
      e ∈ L.foldl dedupeStep acc → e ∈ acc ∨ e ∈ L := by
  induction L with
  | nil => exact fun acc e he => Or.inl he
  | cons l L ih =>
    intro acc e he
    rcases ih _ _ he with h | h
    · rcases dedupeStep_subset h with h' | h'
      · exact Or.inl h'
      · exact Or.inr (by simp [h'])
    · exact Or.inr (List.mem_cons_of_mem _ h)

lemma dedupe_subset {L : List Level} {e : Level} (he : e ∈ dedupe L) :
    e ∈ L := by
  rcases foldl_dedupe_subset L [] e he with h | h
  · cases h
  · exact h

lemma dedupeStep_keeps_level_zero {seen : List Level} {l0 : Level}
    (h0 : l0.level = 0) (hm : l0 ∈ seen) (l : Level) :
    l0 ∈ dedupeStep seen l := by
  unfold dedupeStep
  split
  · apply List.mem_map.2
    refine ⟨l0, hm, ?_⟩
    rw [if_neg]
    rintro ⟨-, hlt⟩
    omega
  · exact List.mem_append_left _ hm

lemma dedupe_keeps_level_zero {l0 : Level} (h0 : l0.level = 0)
    (rest : List Level) : l0 ∈ dedupe (l0 :: rest) := by
  unfold dedupe
  have hstart : l0 ∈ dedupeStep [] l0 := by
    unfold dedupeStep
    simp
  rw [List.foldl_cons]
  generalize hacc : dedupeStep [] l0 = acc at hstart
  clear hacc
  induction rest generalizing acc with
  | nil => exact hstart
  | cons l rest ih =>
    rw [List.foldl_cons]
    exact ih _ (dedupeStep_keeps_level_zero h0 hstart l)

lemma dedupeStep_price_list {seen : List Level} {l : Level}
    (h : ∃ s ∈ seen, s.price = l.price) :
    (dedupeStep seen l).map Level.price = seen.map Level.price := by
  unfold dedupeStep
  rw [if_pos h, List.map_map]
  apply List.map_congr_left
  intro s _
  by_cases hc : s.price = l.price ∧ l.level < s.level
  · simp only [Function.comp_apply, if_pos hc]
    exact hc.1.symm
  · simp only [Function.comp_apply, if_neg hc]

lemma dedupeStep_distinct {seen : List Level} {l : Level}
    (h : (seen.map Level.price).Pairwise (· ≠ ·)) :
    ((dedupeStep seen l).map Level.price).Pairwise (· ≠ ·) := by
  by_cases hc : ∃ s ∈ seen, s.price = l.price
  · rw [dedupeStep_price_list hc]
    exact h
  · unfold dedupeStep
    rw [if_neg hc, List.map_append]
    rw [List.pairwise_append]
    refine ⟨h, by simp, ?_⟩
    intro q hq q' hq'
    rw [List.mem_map] at hq
    obtain ⟨s, hs, rfl⟩ := hq
    rw [List.map_singleton, List.mem_singleton] at hq'
    subst hq'
    exact fun heq => hc ⟨s, hs, heq⟩

lemma dedupe_distinct (L : List Level) :
    ((dedupe L).map Level.price).Pairwise (· ≠ ·) := by
  unfold dedupe
  have key : ∀ (acc : List Level),
      (acc.map Level.price).Pairwise (· ≠ ·) →
      ((L.foldl dedupeStep acc).map Level.price).Pairwise (· ≠ ·) := by
    induction L with
    | nil => exact fun acc h => h
    | cons l L ih =>
      intro acc h
      rw [List.foldl_cons]
      exact ih _ (dedupeStep_distinct h)
  exact key [] (by simp)

/-! Section: sortedness of the deduplicated ladder -/

lemma sortBids_pairwise_gt (L : List Level) :
    ((dedupe L).insertionSort bidOrd).Pairwise
      (fun a b => b.price < a.price) := by
  have hsort : List.Sorted bidOrd ((dedupe L).insertionSort bidOrd) :=
    List.sorted_insertionSort bidOrd _
  have hperm : List.Perm (((dedupe L).insertionSort bidOrd).map Level.price)
      ((dedupe L).map Level.price) :=
    (List.perm_insertionSort bidOrd _).map _
  have hdist : (((dedupe L).insertionSort bidOrd).map Level.price).Pairwise
      (· ≠ ·) :=
    (hperm.pairwise_iff fun h => h.symm).2 (dedupe_distinct L)
  have hdist' : ((dedupe L).insertionSort bidOrd).Pairwise
      (fun a b => a.price ≠ b.price) := List.pairwise_map.1 hdist
  exact (hsort.and hdist').imp fun h => lt_of_le_of_ne h.1 h.2.symm

lemma sortAsks_pairwise_lt (L : List Level) :
    ((dedupe L).insertionSort askOrd).Pairwise
      (fun a b => a.price < b.price) := by
  have hsort : List.Sorted askOrd ((dedupe L).insertionSort askOrd) :=
    List.sorted_insertionSort askOrd _
  have hperm : List.Perm (((dedupe L).insertionSort askOrd).map Level.price)
      ((dedupe L).map Level.price) :=
    (List.perm_insertionSort askOrd _).map _
  have hdist : (((dedupe L).insertionSort askOrd).map Level.price).Pairwise
      (· ≠ ·) :=
    (hperm.pairwise_iff fun h => h.symm).2 (dedupe_distinct L)
  have hdist' : ((dedupe L).insertionSort askOrd).Pairwise
      (fun a b => a.price ≠ b.price) := List.pairwise_map.1 hdist
  exact (hsort.and hdist').imp fun h => lt_of_le_of_ne h.1 h.2

lemma sorted_head_of_max {L : List Level} {l0 : Level}
    (hsort : L.Sorted bidOrd)
    (hdist : (L.map Level.price).Pairwise (· ≠ ·))
    (hmem : l0 ∈ L) (hmax : ∀ e ∈ L, e.price ≤ l0.price) :
    ∃ t, L = l0 :: t := by
  cases L with
  | nil => cases hmem
  | cons h t =>
    rcases List.mem_cons.1 hmem with rfl | hmem'
    · exact ⟨t, rfl⟩
    · exfalso
      have h1 : l0.price ≤ h.price := List.rel_of_sorted_cons hsort _ hmem'
      have h2 : h.price ≤ l0.price := hmax h (List.mem_cons_self _ _)
      have h3 : h.price ≠ l0.price := by
        rw [List.map_cons, List.pairwise_cons] at hdist
        exact hdist.1 l0.price (List.mem_map_of_mem _ hmem')
      exact h3 (le_antisymm h2 h1)

lemma sorted_head_of_min {L : List Level} {l0 : Level}
    (hsort : L.Sorted askOrd)
    (hdist : (L.map Level.price).Pairwise (· ≠ ·))
    (hmem : l0 ∈ L) (hmin : ∀ e ∈ L, l0.price ≤ e.price) :
    ∃ t, L = l0 :: t := by
  cases L with
  | nil => cases hmem
  | cons h t =>
    rcases List.mem_cons.1 hmem with rfl | hmem'
    · exact ⟨t, rfl⟩
    · exfalso
      have h1 : h.price ≤ l0.price := List.rel_of_sorted_cons hsort _ hmem'
      have h2 : l0.price ≤ h.price := hmin h (List.mem_cons_self _ _)
      have h3 : h.price ≠ l0.price := by
        rw [List.map_cons, List.pairwise_cons] at hdist
        exact hdist.1 l0.price (List.mem_map_of_mem _ hmem')
      exact h3 (le_antisymm h1 h2)

/-! Section: clean-orders lemmas -/

/-- The notional impact an emitted order contributes towards
`max_order_notional_side` in `clean_orders`. -/
noncomputable def notional_impact (side : Side) (o : QOrder) : ℝ :=
  if side = Side.BUY then o.price * o.size else (1 - o.price) * o.size

lemma clean_orders_mem {aid : String} {minsz maxN : ℝ} {side : Side}
    {L : List Level} {o : QOrder} :
    ∀ {total : ℝ}, o ∈ clean_orders aid minsz maxN side L total →
    ∃ l ∈ L, o.asset_id = aid ∧ o.side = side ∧ o.price = l.price ∧
      o.size = max minsz l.size := by
  induction L with
  | nil =>
    intro total h
    simp only [clean_orders] at h
    cases h
  | cons lv rest ih =>
    intro total h
    simp only [clean_orders] at h
    split at h <;> split at h
    · cases h
    · rcases List.mem_cons.1 h with rfl | h'
      · exact ⟨lv, List.mem_cons_self _ _, rfl, rfl, rfl, rfl⟩
      · obtain ⟨l, hl, h1, h2, h3, h4⟩ := ih h'
        exact ⟨l, List.mem_cons_of_mem _ hl, h1, h2, h3, h4⟩
    · cases h
    · rcases List.mem_cons.1 h with rfl | h'
      · exact ⟨lv, List.mem_cons_self _ _, rfl, rfl, rfl, rfl⟩
      · obtain ⟨l, hl, h1, h2, h3, h4⟩ := ih h'
        exact ⟨l, List.mem_cons_of_mem _ hl, h1, h2, h3, h4⟩

lemma clean_orders_pairwise (R : ℝ → ℝ → Prop) {aid : String}
    {minsz maxN : ℝ} {side : Side} :
    ∀ {L : List Level}, L.Pairwise (fun a b => R a.price b.price) →
    ∀ total, (clean_orders aid minsz maxN side L total).Pairwise
      (fun a b => R a.price b.price) := by
  intro L
  induction L with
  | nil =>
    intro _ total
    simp [clean_orders]
  | cons lv rest ih =>
    intro h total
    rw [List.pairwise_cons] at h
    simp only [clean_orders]
    split <;> split
    · exact List.Pairwise.nil
    · rw [List.pairwise_cons]
      refine ⟨?_, ih h.2 _⟩
      intro o' ho'
      obtain ⟨l, hl, _, _, h3, _⟩ := clean_orders_mem ho'
      rw [h3]
      exact h.1 l hl
    · exact List.Pairwise.nil
    · rw [List.pairwise_cons]
      refine ⟨?_, ih h.2 _⟩
      intro o' ho'
      obtain ⟨l, hl, _, _, h3, _⟩ := clean_orders_mem ho'
      rw [h3]
      exact h.1 l hl

lemma clean_orders_notional (aid : String) (minsz maxN : ℝ) (side : Side) :
    ∀ (L : List Level) (total : ℝ),
      clean_orders aid minsz maxN side L total = [] ∨
      total + ((clean_orders aid minsz maxN side L total).map
        (notional_impact side)).sum ≤ maxN := by
  intro L
  induction L with
  | nil =>
    intro total
    left
    rfl
  | cons lv rest ih =>
    intro total
    simp only [clean_orders]
    split <;> split
    · left
      rfl
    · rename_i hside hguard
      push_neg at hguard
      right
      rw [List.map_cons, List.sum_cons]
      have himp : notional_impact side
          { asset_id := aid, side := side, price := lv.price,
            size := max minsz lv.size } = lv.price * max minsz lv.size := by
        unfold notional_impact
        rw [if_pos hside]
      rw [himp]
      rcases ih (total + lv.price * max minsz lv.size) with h | h
      · rw [h]
        simpa using hguard
      · linarith
    · left
      rfl
    · rename_i hside hguard
      push_neg at hguard
      right
      rw [List.map_cons, List.sum_cons]
      have himp : notional_impact side
          { asset_id := aid, side := side, price := lv.price,
            size := max minsz lv.size } = (1 - lv.price) * max minsz lv.size := by
        unfold notional_impact
        rw [if_neg hside]
      rw [himp]
      rcases ih (total + (1 - lv.price) * max minsz lv.size) with h | h
      · rw [h]
        simpa using hguard
      · linarith

lemma pyInt_toNat_ge_one {x : ℝ} (h : 1 ≤ x) :
    1 ≤ (pyInt (max 0 x)).toNat := by
  have h0 : (0:ℝ) ≤ max 0 x := le_max_left _ _
  unfold pyInt
  rw [if_pos h0]
  have h1 : (1:ℤ) ≤ ⌊max 0 x⌋ := by
    rw [Int.le_floor]
    exact_mod_cast le_trans h (le_max_right _ _)
  omega

/-! Section: head of the sorted deduplicated ladder -/

lemma sortDedupe_head_bid {l0 : Level} {rest : List Level}
    (h0 : l0.level = 0)
    (hmax : ∀ e ∈ l0 :: rest, e.price ≤ l0.price) :
    ∃ t, (dedupe (l0 :: rest)).insertionSort bidOrd = l0 :: t := by
  have hperm := List.perm_insertionSort bidOrd (dedupe (l0 :: rest))
  have hmem : l0 ∈ (dedupe (l0 :: rest)).insertionSort bidOrd :=
    hperm.mem_iff.2 (dedupe_keeps_level_zero h0 rest)
  have hdist : (((dedupe (l0 :: rest)).insertionSort bidOrd).map
      Level.price).Pairwise (· ≠ ·) :=
    ((hperm.map Level.price).pairwise_iff fun h => h.symm).2
      (dedupe_distinct _)
  exact sorted_head_of_max (List.sorted_insertionSort bidOrd _) hdist hmem
    (fun e he => hmax e (dedupe_subset (hperm.subset he)))

lemma sortDedupe_head_ask {l0 : Level} {rest : List Level}
    (h0 : l0.level = 0)
    (hmin : ∀ e ∈ l0 :: rest, l0.price ≤ e.price) :
    ∃ t, (dedupe (l0 :: rest)).insertionSort askOrd = l0 :: t := by
  have hperm := List.perm_insertionSort askOrd (dedupe (l0 :: rest))
  have hmem : l0 ∈ (dedupe (l0 :: rest)).insertionSort askOrd :=
    hperm.mem_iff.2 (dedupe_keeps_level_zero h0 rest)
  have hdist : (((dedupe (l0 :: rest)).insertionSort askOrd).map
      Level.price).Pairwise (· ≠ ·) :=
    ((hperm.map Level.price).pairwise_iff fun h => h.symm).2
      (dedupe_distinct _)
  exact sorted_head_of_min (List.sorted_insertionSort askOrd _) hdist hmem
    (fun e he => hmin e (dedupe_subset (hperm.subset he)))

lemma build_bids_cons (r_x half_b half_a tick B decay step_mult min_step : ℝ)
    (max_levels : ℕ) (ht : 0 < tick)
    (hstep : 1e-9 < max (step_mult * (half_b + half_a) / 2) min_step)
    (hml : 1 ≤ max_levels)
    (hN : 1 ≤ (r_x - half_b - logit (max tick 0.001)) /
      max (step_mult * (half_b + half_a) / 2) min_step)
    (hp0 : 0.001 < (⌊sigmoid (r_x - half_b) / tick⌋ : ℝ) * tick) :
    ∃ t, (build_v1_ladder r_x half_b half_a tick B decay step_mult min_step
        max_levels).bids =
      { level := 0,
        price := (⌊sigmoid (r_x - half_b) / tick⌋ : ℝ) * tick,
        size := B * 0.10 * decay ^ (0:ℕ) /
          max ((⌊sigmoid (r_x - half_b) / tick⌋ : ℝ) * tick) 0.001 } :: t := by
  have hstep0 : (0:ℝ) ≤ max (step_mult * (half_b + half_a) / 2) min_step :=
    le_trans (by norm_num) hstep.le
  have hN1 : 1 ≤ min max_levels (pyInt (max 0 ((r_x - half_b -
      logit (max tick 0.001)) /
      max (step_mult * (half_b + half_a) / 2) min_step))).toNat :=
    le_min hml (pyInt_toNat_ge_one hN)
  obtain ⟨n, hn⟩ :=
    Nat.exists_eq_succ_of_ne_zero (Nat.one_le_iff_ne_zero.1 hN1)
  have hraw : bidLoop (r_x - half_b)
      (max (step_mult * (half_b + half_a) / 2) min_step) tick (B * 0.10)
      decay (min max_levels (pyInt (max 0 ((r_x - half_b -
        logit (max tick 0.001)) /
        max (step_mult * (half_b + half_a) / 2) min_step))).toNat) 0 =
      { level := 0,
        price := (⌊sigmoid (r_x - half_b) / tick⌋ : ℝ) * tick,
        size := B * 0.10 * decay ^ (0:ℕ) /
          max ((⌊sigmoid (r_x - half_b) / tick⌋ : ℝ) * tick) 0.001 } ::
      bidLoop (r_x - half_b)
        (max (step_mult * (half_b + half_a) / 2) min_step) tick (B * 0.10)
        decay n 1 := by
    rw [hn, bidLoop]
    simp only [Nat.cast_zero, zero_mul, sub_zero]
    rw [if_neg (not_le.2 hp0)]
  have hmax : ∀ e ∈ bidLoop (r_x - half_b)
      (max (step_mult * (half_b + half_a) / 2) min_step) tick (B * 0.10)
      decay (min max_levels (pyInt (max 0 ((r_x - half_b -
        logit (max tick 0.001)) /
        max (step_mult * (half_b + half_a) / 2) min_step))).toNat) 0,
      e.price ≤ (⌊sigmoid (r_x - half_b) / tick⌋ : ℝ) * tick := by
    intro e he
    have h := bidLoop_price_le ht hstep0 he
    simpa using h
  rw [hraw] at hmax
  obtain ⟨t, hS⟩ := sortDedupe_head_bid rfl hmax
  refine ⟨t, ?_⟩
  simp only [build_v1_ladder]
  rw [if_pos hstep, hraw]
  exact hS

lemma build_asks_cons (r_x half_b half_a tick B decay step_mult min_step : ℝ)
    (max_levels : ℕ) (ht : 0 < tick)
    (hstep : 1e-9 < max (step_mult * (half_b + half_a) / 2) min_step)
    (hml : 1 ≤ max_levels)
    (hN : 1 ≤ (logit (min (1 - tick) 0.999) - (r_x + half_a)) /
      max (step_mult * (half_b + half_a) / 2) min_step)
    (hp0 : (⌈sigmoid (r_x + half_a) / tick⌉ : ℝ) * tick < 0.999) :
    ∃ t, (build_v1_ladder r_x half_b half_a tick B decay step_mult min_step
        max_levels).asks =
      { level := 0,
        price := (⌈sigmoid (r_x + half_a) / tick⌉ : ℝ) * tick,
        size := B * 0.10 * decay ^ (0:ℕ) /
          max (1 - (⌈sigmoid (r_x + half_a) / tick⌉ : ℝ) * tick) 0.001 } :: t := by
  have hstep0 : (0:ℝ) ≤ max (step_mult * (half_b + half_a) / 2) min_step :=
    le_trans (by norm_num) hstep.le
  have hN1 : 1 ≤ min max_levels (pyInt (max 0 ((logit (min (1 - tick) 0.999) -
      (r_x + half_a)) /
      max (step_mult * (half_b + half_a) / 2) min_step))).toNat :=
    le_min hml (pyInt_toNat_ge_one hN)
  obtain ⟨n, hn⟩ :=
    Nat.exists_eq_succ_of_ne_zero (Nat.one_le_iff_ne_zero.1 hN1)
  have hraw : askLoop (r_x + half_a)
      (max (step_mult * (half_b + half_a) / 2) min_step) tick (B * 0.10)
      decay (min max_levels (pyInt (max 0 ((logit (min (1 - tick) 0.999) -
        (r_x + half_a)) /
        max (step_mult * (half_b + half_a) / 2) min_step))).toNat) 0 =
      { level := 0,
        price := (⌈sigmoid (r_x + half_a) / tick⌉ : ℝ) * tick,
        size := B * 0.10 * decay ^ (0:ℕ) /
          max (1 - (⌈sigmoid (r_x + half_a) / tick⌉ : ℝ) * tick) 0.001 } ::
      askLoop (r_x + half_a)
        (max (step_mult * (half_b + half_a) / 2) min_step) tick (B * 0.10)
        decay n 1 := by
    rw [hn, askLoop]
    simp only [Nat.cast_zero, zero_mul, add_zero]
    rw [if_neg (not_le.2 hp0)]
  have hmin : ∀ e ∈ askLoop (r_x + half_a)
      (max (step_mult * (half_b + half_a) / 2) min_step) tick (B * 0.10)
      decay (min max_levels (pyInt (max 0 ((logit (min (1 - tick) 0.999) -
        (r_x + half_a)) /
        max (step_mult * (half_b + half_a) / 2) min_step))).toNat) 0,
      (⌈sigmoid (r_x + half_a) / tick⌉ : ℝ) * tick ≤ e.price := by
    intro e he
    have h := askLoop_price_ge ht hstep0 he
    simpa using h
  rw [hraw] at hmin
  obtain ⟨t, hS⟩ := sortDedupe_head_ask rfl hmin
  refine ⟨t, ?_⟩
  simp only [build_v1_ladder]
  rw [if_pos hstep, hraw]
  exact hS

/-! Section: concrete exponential bounds -/

lemma exp_fifth_le : Real.exp 0.2 ≤ 71/58 := by
  have h5 : Real.exp 0.2 ^ (5:ℕ) = Real.exp 1 := by
    rw [← Real.exp_nat_mul]
    norm_num
  have h : Real.exp 0.2 ^ (5:ℕ) < (71/58 : ℝ) ^ (5:ℕ) := by
    rw [h5]
    calc Real.exp 1 < 2.7182818286 := Real.exp_one_lt_d9
      _ < (71/58 : ℝ) ^ (5:ℕ) := by norm_num
  exact (lt_of_pow_lt_pow_left₀ 5 (by norm_num) h).le

lemma exp_fifth_gt : (7:ℝ)/6 < Real.exp 0.2 := by
  have h := Real.add_one_lt_exp (show (0.2:ℝ) ≠ 0 by norm_num)
  linarith

lemma exp_point45_le : Real.exp 0.45 ≤ 7/3 := by
  have h20 : Real.exp 0.45 ^ (20:ℕ) = Real.exp 9 := by
    rw [← Real.exp_nat_mul]
    norm_num
  have h9 : Real.exp (9:ℕ) = Real.exp 1 ^ (9:ℕ) := (Real.exp_one_pow 9).symm
  have h : Real.exp 0.45 ^ (20:ℕ) < (7/3 : ℝ) ^ (20:ℕ) := by
    rw [h20, show (9:ℝ) = ((9:ℕ):ℝ) by norm_num, h9]
    calc Real.exp 1 ^ (9:ℕ) < 2.7182818286 ^ (9:ℕ) := by
          apply pow_lt_pow_left₀ Real.exp_one_lt_d9 (Real.exp_pos 1).le
          norm_num
      _ < (7/3 : ℝ) ^ (20:ℕ) := by norm_num
  exact (lt_of_pow_lt_pow_left₀ 20 (by norm_num) h).le

lemma exp_point75_le : Real.exp 0.75 ≤ 7/3 := by
  have h4 : Real.exp 0.75 ^ (4:ℕ) = Real.exp 3 := by
    rw [← Real.exp_nat_mul]
    norm_num
  have h3 : Real.exp (3:ℕ) = Real.exp 1 ^ (3:ℕ) := (Real.exp_one_pow 3).symm
  have h : Real.exp 0.75 ^ (4:ℕ) < (7/3 : ℝ) ^ (4:ℕ) := by
    rw [h4, show (3:ℝ) = ((3:ℕ):ℝ) by norm_num, h3]
    calc Real.exp 1 ^ (3:ℕ) < 2.7182818286 ^ (3:ℕ) := by
          apply pow_lt_pow_left₀ Real.exp_one_lt_d9 (Real.exp_pos 1).le
          norm_num
      _ < (7/3 : ℝ) ^ (4:ℕ) := by norm_num
  exact (lt_of_pow_lt_pow_left₀ 4 (by norm_num) h).le

lemma exp_half_gt : (3:ℝ)/2 < Real.exp 0.5 := by
  have h := Real.add_one_lt_exp (show (0.5:ℝ) ≠ 0 by norm_num)
  linarith

lemma exp_half_le : Real.exp 0.5 ≤ 9 := by
  have h : Real.exp 0.5 < Real.exp 1 := Real.exp_lt_exp.2 (by norm_num)
  have h2 := Real.exp_one_lt_d9
  linarith

lemma log_two_le : Real.log 2 ≤ 0.7 := by
  rw [Real.log_le_iff_le_exp (by norm_num)]
  have h10 : Real.exp 0.7 ^ (10:ℕ) = Real.exp 7 := by
    rw [← Real.exp_nat_mul]
    norm_num
  have h7 : Real.exp (7:ℕ) = Real.exp 1 ^ (7:ℕ) := (Real.exp_one_pow 7).symm
  have h : (2:ℝ) ^ (10:ℕ) ≤ Real.exp 0.7 ^ (10:ℕ) := by
    rw [h10, show (7:ℝ) = ((7:ℕ):ℝ) by norm_num, h7]
    calc (2:ℝ) ^ (10:ℕ) ≤ 2.7182818283 ^ (7:ℕ) := by norm_num
      _ ≤ Real.exp 1 ^ (7:ℕ) := by
          apply pow_le_pow_left₀ (by norm_num) Real.exp_one_gt_d9.le
  exact le_of_pow_le_pow_left₀ (by norm_num) (Real.exp_pos 0.7).le h

lemma log_two_nonneg : 0 ≤ Real.log 2 := Real.log_nonneg (by norm_num)

lemma log_ninetynine_ge : (2:ℝ) ≤ Real.log 99 := by
  rw [Real.le_log_iff_exp_le (by norm_num)]
  have h2 : Real.exp (2:ℕ) = Real.exp 1 ^ (2:ℕ) := (Real.exp_one_pow 2).symm
  rw [show (2:ℝ) = ((2:ℕ):ℝ) by norm_num, h2]
  calc Real.exp 1 ^ (2:ℕ) ≤ 2.7182818286 ^ (2:ℕ) := by
        apply pow_le_pow_left₀ (Real.exp_pos 1).le Real.exp_one_lt_d9.le
    _ ≤ 99 := by norm_num

/-! Section: ladder price-range lemmas -/

lemma one_le_int_of_cast_mul_pos {k : ℤ} {t : ℝ} (ht : 0 < t)
    (h : 0 < (k:ℝ) * t) : 1 ≤ k := by
  by_contra hk
  push_neg at hk
  have hk0 : k ≤ 0 := by omega
  have hc : (k:ℝ) ≤ 0 := by exact_mod_cast hk0
  nlinarith

lemma build_bids_props {r_x half_b half_a tick B decay step_mult
    min_step : ℝ} {max_levels : ℕ} (ht : 0 < tick) {e : Level}
    (he : e ∈ (build_v1_ladder r_x half_b half_a tick B decay step_mult
      min_step max_levels).bids) :
    (∃ k : ℤ, 1 ≤ k ∧ e.price = k * tick) ∧ 0.001 < e.price ∧ e.price < 1 := by
  simp only [build_v1_ladder] at he
  obtain ⟨-, hp, -, hgt⟩ := bidLoop_mem
    (dedupe_subset ((List.perm_insertionSort bidOrd _).subset he))
  refine ⟨⟨_, ?_, hp⟩, hgt, ?_⟩
  · apply one_le_int_of_cast_mul_pos ht
    rw [hp] at hgt
    linarith
  · rw [hp]
    exact lt_of_le_of_lt (tickFloor_le ht _) (sigmoid_lt_one _)

lemma build_asks_props {r_x half_b half_a tick B decay step_mult
    min_step : ℝ} {max_levels : ℕ} (ht : 0 < tick) {e : Level}
    (he : e ∈ (build_v1_ladder r_x half_b half_a tick B decay step_mult
      min_step max_levels).asks) :
    (∃ k : ℤ, 1 ≤ k ∧ e.price = k * tick) ∧ e.price < 0.999 := by
  simp only [build_v1_ladder] at he
  obtain ⟨-, hp, -, hlt⟩ := askLoop_mem
    (dedupe_subset ((List.perm_insertionSort askOrd _).subset he))
  exact ⟨⟨_, tickCeil_pos_ge ht (sigmoid_pos _), hp⟩, hlt⟩

/-! Section: claim C4 -/

/-- C4 (amended ladder invariants): for every ladder input with a positive
tick and a nonnegative notional cap, the quoter's emitted ladder has
strictly decreasing bid prices and strictly increasing ask prices; every
emitted price is a positive integer multiple of the tick (hence at least
one tick), bid prices lie in `(0.001, 1)` and ask prices below `0.999`;
and the cumulative per-side notional impact never exceeds
`max_order_notional_side`.  (The claimed open interval `(tick, 1 - tick)`
is refuted by the counterexample: a bid can land exactly on `tick` and a
coarse tick lets a price exceed `1 - tick`.) -/
theorem C4_ladder_invariants (r_x half_b half_a tick B decay step_mult
    min_step : ℝ) (max_levels : ℕ) (aid : String) (minsz maxN : ℝ)
    (ht : 0 < tick) (hmaxN : 0 ≤ maxN) :
    ((clean_orders aid minsz maxN Side.BUY
      (build_v1_ladder r_x half_b half_a tick B decay step_mult min_step
        max_levels).bids 0).Pairwise fun a b => b.price < a.price) ∧
    ((clean_orders aid minsz maxN Side.SELL
      (build_v1_ladder r_x half_b half_a tick B decay step_mult min_step
        max_levels).asks 0).Pairwise fun a b => a.price < b.price) ∧
    (∀ o ∈ clean_orders aid minsz maxN Side.BUY
      (build_v1_ladder r_x half_b half_a tick B decay step_mult min_step
        max_levels).bids 0,
      (∃ k : ℤ, 1 ≤ k ∧ o.price = k * tick) ∧ tick ≤ o.price ∧
        0.001 < o.price ∧ o.price < 1) ∧
    (∀ o ∈ clean_orders aid minsz maxN Side.SELL
      (build_v1_ladder r_x half_b half_a tick B decay step_mult min_step
        max_levels).asks 0,
      (∃ k : ℤ, 1 ≤ k ∧ o.price = k * tick) ∧ tick ≤ o.price ∧
        o.price < 0.999) ∧
    ((clean_orders aid minsz maxN Side.BUY
      (build_v1_ladder r_x half_b half_a tick B decay step_mult min_step
        max_levels).bids 0).map (notional_impact Side.BUY)).sum ≤ maxN ∧
    ((clean_orders aid minsz maxN Side.SELL
      (build_v1_ladder r_x half_b half_a tick B decay step_mult min_step
        max_levels).asks 0).map (notional_impact Side.SELL)).sum ≤ maxN := by
  have hbids : (build_v1_ladder r_x half_b half_a tick B decay step_mult
      min_step max_levels).bids.Pairwise fun a b => b.price < a.price := by
    simp only [build_v1_ladder]
    exact sortBids_pairwise_gt _
  have hasks : (build_v1_ladder r_x half_b half_a tick B decay step_mult
      min_step max_levels).asks.Pairwise fun a b => a.price < b.price := by
    simp only [build_v1_ladder]
    exact sortAsks_pairwise_lt _
  have hmul : ∀ {k : ℤ}, 1 ≤ k → ∀ {p : ℝ}, p = k * tick → tick ≤ p := by
    intro k hk p hp
    rw [hp]
    calc tick = 1 * tick := (one_mul tick).symm
      _ ≤ k * tick := by
          apply mul_le_mul_of_nonneg_right _ ht.le
          exact_mod_cast hk
  refine ⟨clean_orders_pairwise (fun x y => y < x) hbids 0,
    clean_orders_pairwise (fun x y => x < y) hasks 0,
    ?_, ?_, ?_, ?_⟩
  · intro o ho
    obtain ⟨l, hl, -, -, h3, -⟩ := clean_orders_mem ho
    obtain ⟨⟨k, hk, hkp⟩, h4, h5⟩ := build_bids_props ht hl
    rw [h3]
    exact ⟨⟨k, hk, hkp⟩, hmul hk hkp, h4, h5⟩
  · intro o ho
    obtain ⟨l, hl, -, -, h3, -⟩ := clean_orders_mem ho
    obtain ⟨⟨k, hk, hkp⟩, h4⟩ := build_asks_props ht hl
    rw [h3]
    exact ⟨⟨k, hk, hkp⟩, hmul hk hkp, h4⟩
  · rcases clean_orders_notional aid minsz maxN Side.BUY
      (build_v1_ladder r_x half_b half_a tick B decay step_mult min_step
        max_levels).bids 0 with h | h
    · rw [h]
      simpa using hmaxN
    · linarith
  · rcases clean_orders_notional aid minsz maxN Side.SELL
      (build_v1_ladder r_x half_b half_a tick B decay step_mult min_step
        max_levels).asks 0 with h | h
    · rw [h]
      simpa using hmaxN
    · linarith

/-- Witness for C4 at a concrete input with `tick = 1/100` and cap 100. -/
theorem C4_ladder_invariants_witness :
    (0:ℝ) < 1/100 ∧ (0:ℝ) ≤ 100 ∧
    (∀ o ∈ clean_orders "A" 1 100 Side.BUY
      (build_v1_ladder 0 (1/2) (1/2) (1/100) 100 (4/5) (1/2) (1/20) 5).bids 0,
      (∃ k : ℤ, 1 ≤ k ∧ o.price = k * (1/100)) ∧ (1:ℝ)/100 ≤ o.price ∧
        0.001 < o.price ∧ o.price < 1) ∧
    ((clean_orders "A" 1 100 Side.BUY
      (build_v1_ladder 0 (1/2) (1/2) (1/100) 100 (4/5) (1/2) (1/20) 5).bids
        0).map (notional_impact Side.BUY)).sum ≤ 100 := by
  have h := C4_ladder_invariants 0 (1/2) (1/2) (1/100) 100 (4/5) (1/2) (1/20)
    5 "A" 1 100 (by norm_num) (by norm_num)
  exact ⟨by norm_num, by norm_num, h.2.2.1, h.2.2.2.2.1⟩

lemma sigmoid_neg_fifth_bounds :
    0.3 ≤ sigmoid ((0:ℝ) - 0.2) ∧ sigmoid ((0:ℝ) - 0.2) < 0.6 := by
  rw [show ((0:ℝ) - 0.2) = -0.2 by norm_num, sigmoid_eq, neg_neg]
  have hE1 := exp_fifth_le
  have hE2 := exp_fifth_gt
  have hpos : (0:ℝ) < 1 + Real.exp 0.2 := by positivity
  constructor
  · rw [le_div_iff hpos]
    linarith
  · rw [div_lt_iff hpos]
    linarith

lemma sigmoid_half_bounds :
    0.6 < sigmoid ((0:ℝ) + 0.5) ∧ sigmoid ((0:ℝ) + 0.5) ≤ 0.9 := by
  rw [show ((0:ℝ) + 0.5) = 0.5 by norm_num, sigmoid_eq]
  have hE1 : Real.exp (-0.5) < 2/3 := by
    rw [Real.exp_neg]
    have h := exp_half_gt
    rw [inv_lt_comm₀ (Real.exp_pos _) (by norm_num)]
    calc (2/3 : ℝ)⁻¹ = 3/2 := by norm_num
      _ < Real.exp 0.5 := exp_half_gt
  have hE2 : (1:ℝ)/9 ≤ Real.exp (-0.5) := by
    rw [Real.exp_neg]
    calc (1:ℝ)/9 = 9⁻¹ := by norm_num
      _ ≤ (Real.exp 0.5)⁻¹ := inv_le_inv_of_le (Real.exp_pos _) exp_half_le
  have hpos : (0:ℝ) < 1 + Real.exp (-0.5) := by positivity
  constructor
  · rw [lt_div_iff hpos]
    linarith
  · rw [div_le_iff hpos]
    linarith

lemma logit_point3_le : logit 0.3 ≤ -0.45 := by
  unfold logit
  rw [clip_of_mem (by norm_num) (by norm_num)]
  rw [show ((0.3:ℝ) / (1 - 0.3)) = 3/7 by norm_num]
  rw [Real.log_le_iff_le_exp (by norm_num)]
  rw [Real.exp_neg]
  calc (3/7 : ℝ) = (7/3 : ℝ)⁻¹ := by norm_num
    _ ≤ (Real.exp 0.45)⁻¹ := inv_le_inv_of_le (Real.exp_pos _) exp_point45_le

lemma logit_point7_ge : 0.75 ≤ logit 0.7 := by
  unfold logit
  rw [clip_of_mem (by norm_num) (by norm_num)]
  rw [show ((0.7:ℝ) / (1 - 0.7)) = 7/3 by norm_num]
  rw [Real.le_log_iff_exp_le (by norm_num)]
  exact exp_point75_le

/-- C4 counterexample: with `tick = 0.3`, `r_x = 0`, `half_b = 0.2`,
`half_a = 0.5`, step `0.25` and one level per side, the emitted bid price
is exactly `0.3 = tick` (not strictly above the tick) and the emitted ask
price is `0.9 > 1 - tick`, refuting the claimed open interval
`(tick, 1 - tick)`. -/
theorem C4_counterexample :
    (∃ o ∈ clean_orders "A" 1 100 Side.BUY
        (build_v1_ladder 0 0.2 0.5 0.3 100 0.8 0 0.25 1).bids 0,
      o.price = 0.3 ∧ ¬ ((0.3:ℝ) < o.price)) ∧
    (∃ o ∈ clean_orders "A" 1 100 Side.SELL
        (build_v1_ladder 0 0.2 0.5 0.3 100 0.8 0 0.25 1).asks 0,
      o.price = 0.9 ∧ ¬ (o.price < 1 - 0.3)) := by
  have hms : max ((0:ℝ) * (0.2 + 0.5) / 2) 0.25 = 0.25 :=
    max_eq_right (by norm_num)
  have hstep : (1e-9 : ℝ) < max ((0:ℝ) * (0.2 + 0.5) / 2) 0.25 := by
    rw [hms]
    norm_num
  have hfloor : ⌊sigmoid ((0:ℝ) - 0.2) / 0.3⌋ = 1 := by
    rw [Int.floor_eq_iff]
    obtain ⟨h1, h2⟩ := sigmoid_neg_fifth_bounds
    constructor
    · push_cast
      rw [le_div_iff₀ (by norm_num : (0:ℝ) < 0.3)]
      linarith
    · rw [div_lt_iff₀ (by norm_num : (0:ℝ) < 0.3)]
      push_cast
      linarith
  have hceil : ⌈sigmoid ((0:ℝ) + 0.5) / 0.3⌉ = 3 := by
    rw [Int.ceil_eq_iff]
    obtain ⟨h1, h2⟩ := sigmoid_half_bounds
    constructor
    · push_cast
      rw [lt_div_iff₀ (by norm_num : (0:ℝ) < 0.3)]
      linarith
    · rw [div_le_iff₀ (by norm_num : (0:ℝ) < 0.3)]
      push_cast
      linarith
  have hNb : 1 ≤ ((0:ℝ) - 0.2 - logit (max 0.3 0.001)) /
      max ((0:ℝ) * (0.2 + 0.5) / 2) 0.25 := by
    rw [hms, max_eq_left (by norm_num : (0.001:ℝ) ≤ 0.3)]
    rw [le_div_iff (by norm_num : (0:ℝ) < 0.25)]
    have := logit_point3_le
    linarith
  have hNa : 1 ≤ (logit (min (1 - 0.3) 0.999) - ((0:ℝ) + 0.5)) /
      max ((0:ℝ) * (0.2 + 0.5) / 2) 0.25 := by
    have hmin : min ((1:ℝ) - 0.3) 0.999 = 0.7 := by
      rw [min_eq_left (by norm_num)]
      norm_num
    rw [hms, hmin]
    rw [le_div_iff (by norm_num : (0:ℝ) < 0.25)]
    have := logit_point7_ge
    linarith
  have hp0b : (0.001:ℝ) < (⌊sigmoid ((0:ℝ) - 0.2) / 0.3⌋ : ℝ) * 0.3 := by
    rw [hfloor]
    norm_num
  have hp0a : (⌈sigmoid ((0:ℝ) + 0.5) / 0.3⌉ : ℝ) * 0.3 < 0.999 := by
    rw [hceil]
    norm_num
  obtain ⟨tb, hb⟩ := build_bids_cons 0 0.2 0.5 0.3 100 0.8 0 0.25 1
    (by norm_num) hstep le_rfl hNb hp0b
  obtain ⟨ta, ha⟩ := build_asks_cons 0 0.2 0.5 0.3 100 0.8 0 0.25 1
    (by norm_num) hstep le_rfl hNa hp0a
  constructor
  · rw [hb]
    simp only [clean_orders, if_true]
    rw [if_neg]
    · refine ⟨_, List.mem_cons_self _ _, ?_, ?_⟩
      · show (⌊sigmoid ((0:ℝ) - 0.2) / 0.3⌋ : ℝ) * 0.3 = 0.3
        rw [hfloor]
        norm_num
      · show ¬ ((0.3:ℝ) < (⌊sigmoid ((0:ℝ) - 0.2) / 0.3⌋ : ℝ) * 0.3)
        rw [hfloor]
        norm_num
    · rw [hfloor]
      rw [show ((((1:ℤ):ℝ)) * 0.3) = 0.3 by norm_num]
      rw [show (max ((0.3:ℝ)) 0.001) = 0.3 from max_eq_left (by norm_num)]
      rw [show ((100:ℝ) * 0.10 * 0.8 ^ (0:ℕ) / 0.3) = 100/3 by norm_num]
      rw [show (max (1:ℝ) (100/3)) = 100/3 from max_eq_right (by norm_num)]
      norm_num
  · rw [ha]
    simp only [clean_orders, if_false]
    rw [if_neg]
    · refine ⟨_, List.mem_cons_self _ _, ?_, ?_⟩
      · show (⌈sigmoid ((0:ℝ) + 0.5) / 0.3⌉ : ℝ) * 0.3 = 0.9
        rw [hceil]
        norm_num
      · show ¬ ((⌈sigmoid ((0:ℝ) + 0.5) / 0.3⌉ : ℝ) * 0.3 < 1 - 0.3)
        rw [hceil]
        norm_num
    · rw [hceil]
      rw [show ((((3:ℤ):ℝ)) * 0.3) = 0.9 by norm_num]
      rw [show ((1:ℝ) - 0.9) = 0.1 by norm_num]
      rw [show (max ((0.1:ℝ)) 0.001) = 0.1 from max_eq_left (by norm_num)]
      rw [show ((100:ℝ) * 0.10 * 0.8 ^ (0:ℕ) / 0.1) = 100 by norm_num]
      rw [show (max (1:ℝ) 100) = 100 from max_eq_right (by norm_num)]
      norm_num
      simp only [reduceCtorEq, if_false]
      norm_num

/-! Section: neutral-scenario value lemmas -/

lemma q_hat_zero (cfg : Cfg) (p : ℝ) (t : ℤ) : q_hat cfg 0 p t = 0 := by
  simp only [q_hat]
  split
  · rw [zero_div]
    unfold clip
    norm_num
  · rfl

lemma estimate_U_proxy_nil (t : ℤ) : estimate_U_proxy [] t = 0 := by
  unfold estimate_U_proxy countRecent
  simp

lemma trade_rate_nil (t : ℤ) (w : ℝ) : trade_rate_per_s [] t w = 0 := by
  unfold trade_rate_per_s
  simp

lemma clip_half : clip (1/2 : ℝ) 1e-6 (1 - 1e-6) = 1/2 :=
  clip_of_mem (by norm_num) (by norm_num)

lemma logit_half : logit (1/2) = 0 := by
  unfold logit
  rw [clip_half, show ((1:ℝ)/2 / (1 - 1/2)) = 1 by norm_num, Real.log_one]

lemma lambda_struct_neutral (cfg : Cfg) (hmin : cfg.lambda_min ≤ 1)
    (hmax : 1 ≤ cfg.lambda_max) : lambda_struct cfg (1/2) 0 = 1 := by
  have hA : A_p cfg (1/2) = 1 := by
    simp only [A_p]
    rw [clip_half, show ((1:ℝ)/2 * (1 - 1/2) / 0.25) = 1 by norm_num,
      Real.one_rpow]
  have hL : L_U cfg 0 = 1 := by
    simp only [L_U]
    have hU : (0:ℝ) < max cfg.U_ref 1e-9 :=
      lt_of_lt_of_le (by norm_num) (le_max_right _ _)
    rw [zero_add, div_self hU.ne', Real.one_rpow]
  simp only [lambda_struct, hA, hL]
  rw [sub_self, mul_zero, mul_zero, add_zero, zero_div, show clip 0 (-1) 1 = 0
    from by unfold clip; norm_num]
  rw [if_neg (lt_irrefl (0:ℝ)), mul_zero, add_zero]
  exact clip_of_mem hmin hmax

lemma base_half_spread_neutral (cfg : Cfg) (hc : cfg.c_risk = 0.2)
    (hk : cfg.kappa0 = 1) (hm : 0.2 + Real.log 2 ≤ cfg.max_half_spread_logit) :
    base_half_spread cfg 1 1 1 0 = 0.2 + Real.log 2 := by
  have hd : delta_liq cfg 1 0 = Real.log 2 := by
    simp only [delta_liq]
    rw [hk, zero_div, add_zero, mul_one,
      show max (1:ℝ) 1e-9 = 1 from max_eq_left (by norm_num)]
    norm_num
  simp only [base_half_spread, hd]
  rw [hc, show (0.2:ℝ) * 1 * 1 * 1 = 0.2 by norm_num]
  exact clip_of_mem (by have := log_two_nonneg; linarith) hm

lemma B_side_zero (cfg : Cfg) (hB : cfg.bankroll_B = 0) : B_side cfg = 0 := by
  unfold B_side
  rw [hB]
  ring

lemma default_B_side_tf : B_side defaultCfg * time_factor defaultCfg 0 = 25/3 := by
  have h1 : B_side defaultCfg = 25/3 := by
    simp only [B_side, defaultCfg]
    rw [show max (3:ℕ) 1 = 3 from rfl]
    norm_num
  have h2 : time_factor defaultCfg 0 = 1 := by
    simp only [time_factor, defaultCfg, sub_zero]
    rw [show max (86400000:ℤ) 1 = 86400000 from max_eq_left (by norm_num),
      show max (86400000:ℤ) 0 = 86400000 from max_eq_left (by norm_num),
      if_pos (by norm_num : (0:ℝ) < ((86400000:ℤ):ℝ)/1000)]
    rw [div_self (by norm_num : ((86400000:ℤ):ℝ)/1000 ≠ 0)]
    exact Real.one_rpow _
  rw [h1, h2]
  norm_num

/-! Section: projections of the quoter output -/

lemma compute_metrics_def (cfg : Cfg) (mid tick : ℝ) (trade_ts : List ℤ)
    (ind : IndState) (q_yes : ℝ) (t_now : ℤ) :
    (compute cfg mid tick trade_ts ind q_yes t_now).metrics =
      { p_mid := clip mid 1e-6 (1 - 1e-6)
        qhat := q_hat cfg q_yes (clip mid 1e-6 (1 - 1e-6)) t_now
        gamma := gammaInd cfg (q_hat cfg q_yes (clip mid 1e-6 (1 - 1e-6)) t_now)
        lambda := lambda_struct cfg (clip mid 1e-6 (1 - 1e-6))
          (estimate_U_proxy trade_ts t_now)
        sigma := ind.sigma_smoothed
        delta_logit := q_hat cfg q_yes (clip mid 1e-6 (1 - 1e-6)) t_now *
          gammaInd cfg (q_hat cfg q_yes (clip mid 1e-6 (1 - 1e-6)) t_now) *
          lambda_struct cfg (clip mid 1e-6 (1 - 1e-6))
            (estimate_U_proxy trade_ts t_now) * ind.sigma_smoothed
        r_logit := logit (clip mid 1e-6 (1 - 1e-6)) -
          q_hat cfg q_yes (clip mid 1e-6 (1 - 1e-6)) t_now *
          gammaInd cfg (q_hat cfg q_yes (clip mid 1e-6 (1 - 1e-6)) t_now) *
          lambda_struct cfg (clip mid 1e-6 (1 - 1e-6))
            (estimate_U_proxy trade_ts t_now) * ind.sigma_smoothed } := rfl

lemma compute_bids_def (cfg : Cfg) (mid tick : ℝ) (trade_ts : List ℤ)
    (ind : IndState) (q_yes : ℝ) (t_now : ℤ) :
    (compute cfg mid tick trade_ts ind q_yes t_now).bids =
      clean_orders cfg.asset_id_yes cfg.min_order_size
        cfg.max_order_notional_side Side.BUY
        (build_v1_ladder
          (logit (clip mid 1e-6 (1 - 1e-6)) -
            q_hat cfg q_yes (clip mid 1e-6 (1 - 1e-6)) t_now *
            gammaInd cfg (q_hat cfg q_yes (clip mid 1e-6 (1 - 1e-6)) t_now) *
            lambda_struct cfg (clip mid 1e-6 (1 - 1e-6))
              (estimate_U_proxy trade_ts t_now) * ind.sigma_smoothed)
          (base_half_spread cfg
            (gammaInd cfg (q_hat cfg q_yes (clip mid 1e-6 (1 - 1e-6)) t_now))
            (lambda_struct cfg (clip mid 1e-6 (1 - 1e-6))
              (estimate_U_proxy trade_ts t_now))
            ind.sigma_smoothed (trade_rate_per_s trade_ts t_now 60))
          (base_half_spread cfg
            (gammaInd cfg (q_hat cfg q_yes (clip mid 1e-6 (1 - 1e-6)) t_now))
            (lambda_struct cfg (clip mid 1e-6 (1 - 1e-6))
              (estimate_U_proxy trade_ts t_now))
            ind.sigma_smoothed (trade_rate_per_s trade_ts t_now 60))
          tick (B_side cfg * time_factor cfg t_now) cfg.ladder_decay
          cfg.ladder_step_mult cfg.ladder_min_step_logit
          cfg.ladder_max_levels).bids 0 := rfl

lemma compute_asks_def (cfg : Cfg) (mid tick : ℝ) (trade_ts : List ℤ)
    (ind : IndState) (q_yes : ℝ) (t_now : ℤ) :
    (compute cfg mid tick trade_ts ind q_yes t_now).asks =
      clean_orders cfg.asset_id_yes cfg.min_order_size
        cfg.max_order_notional_side Side.SELL
        (build_v1_ladder
          (logit (clip mid 1e-6 (1 - 1e-6)) -
            q_hat cfg q_yes (clip mid 1e-6 (1 - 1e-6)) t_now *
            gammaInd cfg (q_hat cfg q_yes (clip mid 1e-6 (1 - 1e-6)) t_now) *
            lambda_struct cfg (clip mid 1e-6 (1 - 1e-6))
              (estimate_U_proxy trade_ts t_now) * ind.sigma_smoothed)
          (base_half_spread cfg
            (gammaInd cfg (q_hat cfg q_yes (clip mid 1e-6 (1 - 1e-6)) t_now))
            (lambda_struct cfg (clip mid 1e-6 (1 - 1e-6))
              (estimate_U_proxy trade_ts t_now))
            ind.sigma_smoothed (trade_rate_per_s trade_ts t_now 60))
          (base_half_spread cfg
            (gammaInd cfg (q_hat cfg q_yes (clip mid 1e-6 (1 - 1e-6)) t_now))
            (lambda_struct cfg (clip mid 1e-6 (1 - 1e-6))
              (estimate_U_proxy trade_ts t_now))
            ind.sigma_smoothed (trade_rate_per_s trade_ts t_now 60))
          tick (B_side cfg * time_factor cfg t_now) cfg.ladder_decay
          cfg.ladder_step_mult cfg.ladder_min_step_logit
          cfg.ladder_max_levels).asks 0 := rfl

/-! Section: scenario S1 concrete values -/

lemma exp_s1 : Real.exp (0.2 + Real.log 2) = 2 * Real.exp 0.2 := by
  rw [Real.exp_add, Real.exp_log (by norm_num : (0:ℝ) < 2)]
  ring

lemma sigmoid_s1_bid_bounds :
    29/100 ≤ sigmoid ((0:ℝ) - (0.2 + Real.log 2)) ∧
    sigmoid ((0:ℝ) - (0.2 + Real.log 2)) < 30/100 := by
  rw [sigmoid_eq, show (-((0:ℝ) - (0.2 + Real.log 2))) = 0.2 + Real.log 2
    by ring, exp_s1]
  have hE1 := exp_fifth_le
  have hE2 := exp_fifth_gt
  have hpos : (0:ℝ) < 1 + 2 * Real.exp 0.2 := by positivity
  constructor
  · rw [le_div_iff₀ hpos]
    linarith
  · rw [div_lt_iff₀ hpos]
    linarith

lemma sigmoid_s1_ask_bounds :
    70/100 < sigmoid ((0:ℝ) + (0.2 + Real.log 2)) ∧
    sigmoid ((0:ℝ) + (0.2 + Real.log 2)) ≤ 71/100 := by
  rw [sigmoid_eq, show (-((0:ℝ) + (0.2 + Real.log 2))) = -(0.2 + Real.log 2)
    by ring, Real.exp_neg, exp_s1]
  have hE1 := exp_fifth_le
  have hE2 := exp_fifth_gt
  have hinv : (2 * Real.exp 0.2)⁻¹ = 1 / (2 * Real.exp 0.2) := (one_div _).symm
  have hx1 : (29:ℝ)/71 ≤ (2 * Real.exp 0.2)⁻¹ := by
    rw [hinv, le_div_iff₀ (by positivity)]
    linarith
  have hx2 : (2 * Real.exp 0.2)⁻¹ < 3/7 := by
    rw [hinv, div_lt_iff₀ (by positivity)]
    linarith
  have hpos : (0:ℝ) < 1 + (2 * Real.exp 0.2)⁻¹ := by positivity
  constructor
  · rw [lt_div_iff₀ hpos]
    linarith
  · rw [div_le_iff₀ hpos]
    linarith

lemma s1_floor : ⌊sigmoid ((0:ℝ) - (0.2 + Real.log 2)) / (1/100)⌋ = 29 := by
  rw [Int.floor_eq_iff]
  obtain ⟨h1, h2⟩ := sigmoid_s1_bid_bounds
  constructor
  · push_cast
    rw [le_div_iff₀ (by norm_num : (0:ℝ) < 1/100)]
    linarith
  · rw [div_lt_iff₀ (by norm_num : (0:ℝ) < 1/100)]
    push_cast
    linarith

lemma s1_ceil : ⌈sigmoid ((0:ℝ) + (0.2 + Real.log 2)) / (1/100)⌉ = 71 := by
  rw [Int.ceil_eq_iff]
  obtain ⟨h1, h2⟩ := sigmoid_s1_ask_bounds
  constructor
  · push_cast
    rw [lt_div_iff₀ (by norm_num : (0:ℝ) < 1/100)]
    linarith
  · rw [div_le_iff₀ (by norm_num : (0:ℝ) < 1/100)]
    push_cast
    linarith

lemma logit_one_hundredth : logit (1/100) = -Real.log 99 := by
  unfold logit
  rw [clip_of_mem (by norm_num) (by norm_num)]
  rw [show ((1:ℝ)/100 / (1 - 1/100)) = 1/99 by norm_num]
  rw [one_div, Real.log_inv]

lemma logit_99 : logit (99/100) = Real.log 99 := by
  unfold logit
  rw [clip_of_mem (by norm_num) (by norm_num)]
  rw [show ((99:ℝ)/100 / (1 - 99/100)) = 99 by norm_num]

lemma s1_step_pos : (1e-9:ℝ) <
    max ((0.5:ℝ) * ((0.2 + Real.log 2) + (0.2 + Real.log 2)) / 2) 0.05 := by
  have := log_two_nonneg
  rw [max_eq_left (by linarith)]
  linarith

lemma s1_Nb : 1 ≤ ((0:ℝ) - (0.2 + Real.log 2) - logit (max (1/100) 0.001)) /
    max ((0.5:ℝ) * ((0.2 + Real.log 2) + (0.2 + Real.log 2)) / 2) 0.05 := by
  have h2 := log_two_nonneg
  have h2u := log_two_le
  have h99 := log_ninetynine_ge
  rw [max_eq_left (by norm_num : (0.001:ℝ) ≤ 1/100), logit_one_hundredth,
    max_eq_left (by linarith)]
  rw [le_div_iff₀ (by linarith)]
  linarith

lemma s1_Na : 1 ≤ (logit (min (1 - 1/100) 0.999) - ((0:ℝ) + (0.2 + Real.log 2))) /
    max ((0.5:ℝ) * ((0.2 + Real.log 2) + (0.2 + Real.log 2)) / 2) 0.05 := by
  have h2 := log_two_nonneg
  have h2u := log_two_le
  have h99 := log_ninetynine_ge
  rw [show min ((1:ℝ) - 1/100) 0.999 = 99/100 by
    rw [min_eq_left (by norm_num)]; norm_num]
  rw [logit_99, max_eq_left (by linarith)]
  rw [le_div_iff₀ (by linarith)]
  linarith

lemma s1_p0b : (0.001:ℝ) <
    (⌊sigmoid ((0:ℝ) - (0.2 + Real.log 2)) / (1/100)⌋ : ℝ) * (1/100) := by
  rw [s1_floor]
  norm_num

lemma s1_p0a :
    (⌈sigmoid ((0:ℝ) + (0.2 + Real.log 2)) / (1/100)⌉ : ℝ) * (1/100) < 0.999 := by
  rw [s1_ceil]
  norm_num

lemma s1_gamma :
    gammaInd defaultCfg (q_hat defaultCfg 0 (clip (1/2 : ℝ) 1e-6 (1 - 1e-6)) 0)
      = 1 := by
  rw [q_hat_zero]
  exact gammaInd_zero (by norm_num [defaultCfg])

lemma s1_lambda :
    lambda_struct defaultCfg (clip (1/2 : ℝ) 1e-6 (1 - 1e-6))
      (estimate_U_proxy [] 0) = 1 := by
  rw [clip_half, estimate_U_proxy_nil]
  exact lambda_struct_neutral defaultCfg (by norm_num [defaultCfg])
    (by norm_num [defaultCfg])

lemma s1_delta : q_hat defaultCfg 0 (clip (1/2 : ℝ) 1e-6 (1 - 1e-6)) 0 *
    gammaInd defaultCfg (q_hat defaultCfg 0 (clip (1/2 : ℝ) 1e-6 (1 - 1e-6)) 0) *
    lambda_struct defaultCfg (clip (1/2 : ℝ) 1e-6 (1 - 1e-6))
      (estimate_U_proxy [] 0) * indInit.sigma_smoothed = 0 := by
  rw [q_hat_zero, zero_mul, zero_mul, zero_mul]

lemma s1_R : logit (clip (1/2 : ℝ) 1e-6 (1 - 1e-6)) -
    q_hat defaultCfg 0 (clip (1/2 : ℝ) 1e-6 (1 - 1e-6)) 0 *
    gammaInd defaultCfg (q_hat defaultCfg 0 (clip (1/2 : ℝ) 1e-6 (1 - 1e-6)) 0) *
    lambda_struct defaultCfg (clip (1/2 : ℝ) 1e-6 (1 - 1e-6))
      (estimate_U_proxy [] 0) * indInit.sigma_smoothed = 0 := by
  rw [q_hat_zero, zero_mul, zero_mul, zero_mul, sub_zero, clip_half, logit_half]

lemma s1_h : base_half_spread defaultCfg
    (gammaInd defaultCfg (q_hat defaultCfg 0 (clip (1/2 : ℝ) 1e-6 (1 - 1e-6)) 0))
    (lambda_struct defaultCfg (clip (1/2 : ℝ) 1e-6 (1 - 1e-6))
      (estimate_U_proxy [] 0))
    indInit.sigma_smoothed (trade_rate_per_s [] 0 60) = 0.2 + Real.log 2 := by
  rw [q_hat_zero, gammaInd_zero (by norm_num [defaultCfg] :
      (1:ℝ) ≤ defaultCfg.gamma_max),
    clip_half, estimate_U_proxy_nil,
    lambda_struct_neutral defaultCfg (by norm_num [defaultCfg])
      (by norm_num [defaultCfg]),
    trade_rate_nil]
  show base_half_spread defaultCfg 1 1 1 0 = 0.2 + Real.log 2
  refine base_half_spread_neutral defaultCfg rfl rfl ?_
  show (0.2:ℝ) + Real.log 2 ≤ 1.5
  have := log_two_le
  linarith

/-- C3 (scenario S1): with the default configuration (`c_risk = 0.2`,
`kappa0 = 1`), mid `0.50`, tick `0.01`, no trades (rate 0), the initial
indicator state (`sigma = 1`) and zero inventory at time 0, the quoter
yields `gamma = 1`, `lambda = 1`, `sigma = 1`, skew `delta = 0` and
reservation logit `r_x = logit(0.5) = 0`; the base half-spread is
`h = 0.2 + ln 2`; `floor_to_tick(sigmoid(0 - h), 0.01) = 0.29` and
`ceil_to_tick(sigmoid(0 + h), 0.01) = 0.71`; and the first emitted ladder
levels are a bid at price `0.29` and an ask at price `0.71`. -/
theorem C3_scenario_S1 :
    (compute defaultCfg (1/2) (1/100) [] indInit 0 0).metrics.gamma = 1 ∧
    (compute defaultCfg (1/2) (1/100) [] indInit 0 0).metrics.lambda = 1 ∧
    (compute defaultCfg (1/2) (1/100) [] indInit 0 0).metrics.sigma = 1 ∧
    (compute defaultCfg (1/2) (1/100) [] indInit 0 0).metrics.delta_logit = 0 ∧
    (compute defaultCfg (1/2) (1/100) [] indInit 0 0).metrics.r_logit = 0 ∧
    base_half_spread defaultCfg 1 1 1 0 = 0.2 + Real.log 2 ∧
    floor_to_tick (sigmoid ((0:ℝ) - (0.2 + Real.log 2))) (1/100)
      = some (29/100) ∧
    ceil_to_tick (sigmoid ((0:ℝ) + (0.2 + Real.log 2))) (1/100)
      = some (71/100) ∧
    (∃ o t2, (compute defaultCfg (1/2) (1/100) [] indInit 0 0).bids = o :: t2 ∧
      o.price = 29/100) ∧
    (∃ o t2, (compute defaultCfg (1/2) (1/100) [] indInit 0 0).asks = o :: t2 ∧
      o.price = 71/100) := by
  obtain ⟨tb, hb⟩ := build_bids_cons 0 (0.2 + Real.log 2) (0.2 + Real.log 2)
    (1/100) (25/3) defaultCfg.ladder_decay defaultCfg.ladder_step_mult
    defaultCfg.ladder_min_step_logit defaultCfg.ladder_max_levels
    (by norm_num) s1_step_pos (by norm_num [defaultCfg]) s1_Nb s1_p0b
  obtain ⟨ta, ha⟩ := build_asks_cons 0 (0.2 + Real.log 2) (0.2 + Real.log 2)
    (1/100) (25/3) defaultCfg.ladder_decay defaultCfg.ladder_step_mult
    defaultCfg.ladder_min_step_logit defaultCfg.ladder_max_levels
    (by norm_num) s1_step_pos (by norm_num [defaultCfg]) s1_Na s1_p0a
  refine ⟨s1_gamma, s1_lambda, rfl, s1_delta, s1_R, ?_, ?_, ?_, ?_, ?_⟩
  · refine base_half_spread_neutral defaultCfg rfl rfl ?_
    show (0.2:ℝ) + Real.log 2 ≤ 1.5
    have := log_two_le
    linarith
  · unfold floor_to_tick
    rw [if_neg (by norm_num : ¬ ((1:ℝ)/100 = 0)), s1_floor]
    norm_num
  · unfold ceil_to_tick
    rw [if_neg (by norm_num : ¬ ((1:ℝ)/100 = 0)), s1_ceil]
    norm_num
  · rw [compute_bids_def, s1_R, s1_h, default_B_side_tf, hb]
    simp only [clean_orders, if_true]
    rw [if_neg]
    · refine ⟨_, _, rfl, ?_⟩
      show (⌊sigmoid ((0:ℝ) - (0.2 + Real.log 2)) / (1/100)⌋ : ℝ) * (1/100)
        = 29/100
      rw [s1_floor]
      norm_num
    · rw [s1_floor]
      rw [show (((29:ℤ):ℝ)) * (1/100) = 29/100 by norm_num]
      rw [show (max ((29:ℝ)/100) 0.001) = 29/100 from max_eq_left (by norm_num)]
      rw [pow_zero]
      rw [show ((25:ℝ)/3 * 0.10 * 1 / (29/100)) = 250/87 by norm_num]
      rw [show (max defaultCfg.min_order_size ((250:ℝ)/87)) = 250/87 from
        max_eq_right (by norm_num [defaultCfg])]
      norm_num [defaultCfg]
  · rw [compute_asks_def, s1_R, s1_h, default_B_side_tf, ha]
    simp only [clean_orders, if_false]
    rw [if_neg]
    · refine ⟨_, _, rfl, ?_⟩
      show (⌈sigmoid ((0:ℝ) + (0.2 + Real.log 2)) / (1/100)⌉ : ℝ) * (1/100)
        = 71/100
      rw [s1_ceil]
      norm_num
    · rw [s1_ceil]
      rw [show (((71:ℤ):ℝ)) * (1/100) = 71/100 by norm_num]
      rw [show ((1:ℝ) - 71/100) = 29/100 by norm_num]
      rw [show (max ((29:ℝ)/100) 0.001) = 29/100 from max_eq_left (by norm_num)]
      rw [pow_zero]
      rw [show ((25:ℝ)/3 * 0.10 * 1 / (29/100)) = 250/87 by norm_num]
      rw [show (max defaultCfg.min_order_size ((250:ℝ)/87)) = 250/87 from
        max_eq_right (by norm_num [defaultCfg])]
      simp only [reduceCtorEq, if_false]
      norm_num [defaultCfg]

/-! Section: claim C6 (zero bankroll) -/

/-- The default configuration with the bankroll zeroed out. -/
noncomputable def cfg6 : Cfg := { defaultCfg with bankroll_B := 0 }

lemma build_bids_size_zero {r_x half_b half_a tick decay step_mult
    min_step : ℝ} {max_levels : ℕ} {e : Level}
    (he : e ∈ (build_v1_ladder r_x half_b half_a tick 0 decay step_mult
      min_step max_levels).bids) : e.size = 0 := by
  simp only [build_v1_ladder] at he
  obtain ⟨-, -, hs, -⟩ := bidLoop_mem
    (dedupe_subset ((List.perm_insertionSort bidOrd _).subset he))
  rw [hs, zero_mul, zero_mul, zero_div]

lemma build_asks_size_zero {r_x half_b half_a tick decay step_mult
    min_step : ℝ} {max_levels : ℕ} {e : Level}
    (he : e ∈ (build_v1_ladder r_x half_b half_a tick 0 decay step_mult
      min_step max_levels).asks) : e.size = 0 := by
  simp only [build_v1_ladder] at he
  obtain ⟨-, -, hs, -⟩ := askLoop_mem
    (dedupe_subset ((List.perm_insertionSort askOrd _).subset he))
  rw [hs, zero_mul, zero_mul, zero_div]

lemma s6_R : logit (clip (1/2 : ℝ) 1e-6 (1 - 1e-6)) -
    q_hat cfg6 0 (clip (1/2 : ℝ) 1e-6 (1 - 1e-6)) 0 *
    gammaInd cfg6 (q_hat cfg6 0 (clip (1/2 : ℝ) 1e-6 (1 - 1e-6)) 0) *
    lambda_struct cfg6 (clip (1/2 : ℝ) 1e-6 (1 - 1e-6))
      (estimate_U_proxy [] 0) * indInit.sigma_smoothed = 0 := by
  rw [q_hat_zero, zero_mul, zero_mul, zero_mul, sub_zero, clip_half, logit_half]

lemma s6_h : base_half_spread cfg6
    (gammaInd cfg6 (q_hat cfg6 0 (clip (1/2 : ℝ) 1e-6 (1 - 1e-6)) 0))
    (lambda_struct cfg6 (clip (1/2 : ℝ) 1e-6 (1 - 1e-6))
      (estimate_U_proxy [] 0))
    indInit.sigma_smoothed (trade_rate_per_s [] 0 60) = 0.2 + Real.log 2 := by
  rw [q_hat_zero, gammaInd_zero (by norm_num [cfg6, defaultCfg] :
      (1:ℝ) ≤ cfg6.gamma_max),
    clip_half, estimate_U_proxy_nil,
    lambda_struct_neutral cfg6 (by norm_num [cfg6, defaultCfg])
      (by norm_num [cfg6, defaultCfg]),
    trade_rate_nil]
  show base_half_spread cfg6 1 1 1 0 = 0.2 + Real.log 2
  refine base_half_spread_neutral cfg6 rfl rfl ?_
  show (0.2:ℝ) + Real.log 2 ≤ 1.5
  have := log_two_le
  linarith

lemma cfg6_Bs : B_side cfg6 * time_factor cfg6 0 = 0 := by
  rw [B_side_zero cfg6 rfl, zero_mul]

/-- C6 counterexample: with the default configuration but zero bankroll, the
quoter's bid ladder in the neutral S1 market state is NOT empty — the ladder
levels get size 0, which `clean_orders` bumps up to `min_order_size`, so an
order is still emitted. -/
theorem C6_counterexample :
    cfg6.bankroll_B = 0 ∧
    (compute cfg6 (1/2) (1/100) [] indInit 0 0).bids ≠ [] := by
  refine ⟨rfl, ?_⟩
  obtain ⟨tb, hb⟩ := build_bids_cons 0 (0.2 + Real.log 2) (0.2 + Real.log 2)
    (1/100) 0 cfg6.ladder_decay cfg6.ladder_step_mult
    cfg6.ladder_min_step_logit cfg6.ladder_max_levels
    (by norm_num) s1_step_pos (by norm_num [cfg6, defaultCfg]) s1_Nb s1_p0b
  rw [compute_bids_def, s6_R, s6_h, cfg6_Bs, hb]
  simp only [clean_orders, if_true]
  rw [if_neg]
  · exact List.cons_ne_nil _ _
  · rw [s1_floor]
    rw [show (((29:ℤ):ℝ)) * (1/100) = 29/100 by norm_num]
    rw [show (max ((29:ℝ)/100) 0.001) = 29/100 from max_eq_left (by norm_num)]
    rw [pow_zero]
    rw [show ((0:ℝ) * 0.10 * 1 / (29/100)) = 0 by norm_num]
    rw [show (max cfg6.min_order_size (0:ℝ)) = cfg6.min_order_size from
      max_eq_left (by norm_num [cfg6, defaultCfg])]
    norm_num [cfg6, defaultCfg]

/-- C6 (amended zero-bankroll boundary): with a zero bankroll (so
`B_side = 0`) and a nonnegative `min_order_size`, every ladder level is
built with size 0, which `clean_orders` bumps up to `min_order_size` —
so every emitted bid and ask order (on either side, in any market state)
has size exactly `min_order_size`, and the ladder is NOT empty in general
(see the counterexample).  The reconciler clause holds in the form the
code gives it: against an empty desired ladder, `reconcile_side` cancels
every existing open order. -/
theorem C6_zero_bankroll (cfg : Cfg) (mid tick : ℝ) (trade_ts : List ℤ)
    (ind : IndState) (q_yes : ℝ) (t_now : ℤ)
    (cancelFails : String → Bool)
    (hB : cfg.bankroll_B = 0) (hms : 0 ≤ cfg.min_order_size) :
    (∀ o ∈ (compute cfg mid tick trade_ts ind q_yes t_now).bids,
      o.size = cfg.min_order_size) ∧
    (∀ o ∈ (compute cfg mid tick trade_ts ind q_yes t_now).asks,
      o.size = cfg.min_order_size) ∧
    (∀ m : List OpenOrder, reconcile_side cancelFails [] m =
      m.map fun o => Op.cancel o.order_id) := by
  have hBs : B_side cfg * time_factor cfg t_now = 0 := by
    rw [B_side_zero cfg hB, zero_mul]
  refine ⟨?_, ?_, ?_⟩
  · intro o ho
    rw [compute_bids_def, hBs] at ho
    obtain ⟨l, hl, -, -, -, h4⟩ := clean_orders_mem ho
    rw [h4, build_bids_size_zero hl]
    exact max_eq_left hms
  · intro o ho
    rw [compute_asks_def, hBs] at ho
    obtain ⟨l, hl, -, -, -, h4⟩ := clean_orders_mem ho
    rw [h4, build_asks_size_zero hl]
    exact max_eq_left hms
  · intro m
    simp only [reconcile_side, reconcileWants, pruneOps]
    simp [List.filter_eq_self]

/-- Closed witness for the amended C6 theorem, at the zero-bankroll
configuration and the S1 market state. -/
theorem C6_zero_bankroll_witness :
    cfg6.bankroll_B = 0 ∧ (0:ℝ) ≤ cfg6.min_order_size ∧
    ((∀ o ∈ (compute cfg6 (1/2) (1/100) [] indInit 0 0).bids,
      o.size = cfg6.min_order_size) ∧
     (∀ o ∈ (compute cfg6 (1/2) (1/100) [] indInit 0 0).asks,
      o.size = cfg6.min_order_size) ∧
     (∀ m : List OpenOrder, reconcile_side (fun _ => false) [] m =
      m.map fun o => Op.cancel o.order_id)) :=
  ⟨rfl, by norm_num [cfg6, defaultCfg],
    C6_zero_bankroll cfg6 (1/2) (1/100) [] indInit 0 0 (fun _ => false) rfl
      (by norm_num [cfg6, defaultCfg])⟩

end PM4
